import Mathlib

/-!
Verification development for the startup-guillotine validation backend.

The Python source under `backend/app` is shallowly embedded: pure helper
functions become Lean functions, the stateful orchestration becomes explicit
parameter passing (service availability flags, adapter results and the LLM
gateway are passed in as explicit behaviours), machine floats from the source
are modelled exactly (rationals in the typed schema, scaled decimals in the
quality checks), Python `int` as `Int`, and fallible code returns `Option`
or `Except`.  Python standard-library JSON (`json.loads` / `json.dumps`) is
modelled by an executable serializer and a fuel-based recursive-descent
reader over ASCII text without escape sequences, fractional or exponent
number literals; Python `str.isdigit` is modelled on ASCII digits.
-/

set_option maxRecDepth 100000

namespace StartupGuillotine

mutual
/-- JSON values as produced by `json.loads` on the texts the validator
handles.  Arrays and objects are mutually inductive lists so that all
recursion below is structural.  Numbers are modelled as integers. -/
inductive Json where
  | null : Json
  | bool (b : Bool) : Json
  | num (n : Int) : Json
  | str (s : String) : Json
  | arr (a : JsonArr) : Json
  | obj (o : JsonObj) : Json
deriving DecidableEq

inductive JsonArr where
  | nil : JsonArr
  | cons (hd : Json) (tl : JsonArr) : JsonArr
deriving DecidableEq

inductive JsonObj where
  | nil : JsonObj
  | cons (key : String) (val : Json) (tl : JsonObj) : JsonObj
deriving DecidableEq
end

/-- Python `dict` lookup on a JSON object; later bindings shadow earlier
ones, as `json.loads` keeps the last duplicate key. -/
def JsonObj.get : JsonObj → String → Option Json
  | .nil, _ => none
  | .cons k v tl, key =>
      match JsonObj.get tl key with
      | some w => some w
      | none => if k = key then some v else none

/-- Python `key in dict`. -/
def JsonObj.hasKey (o : JsonObj) (key : String) : Bool :=
  (o.get key).isSome

/-- The decimal digit characters. -/
def digitChar (d : Nat) : Char :=
  ['0', '1', '2', '3', '4', '5', '6', '7', '8', '9'].getD d '0'

/-- Fuel-based decimal rendering of a natural number (most significant digit
first); total and structurally recursive so that it evaluates by `decide`. -/
def natDigitsAux : Nat → Nat → List Char
  | 0, _ => []
  | fuel + 1, n =>
      if n < 10 then [digitChar n]
      else natDigitsAux fuel (n / 10) ++ [digitChar (n % 10)]

/-- Decimal rendering of a natural number. -/
def natDigits (n : Nat) : List Char :=
  natDigitsAux (n + 1) n

/-- Decimal rendering of an integer, as `json.dumps` emits it. -/
def intDigits (n : Int) : List Char :=
  if n < 0 then '-' :: natDigits n.natAbs else natDigits n.toNat

mutual
/-- `json.dumps` (compact form) on a JSON value, as a character list.
String contents are emitted verbatim; the development only ever serializes
strings free of quotes, backslashes and control characters, where this
agrees with `json.dumps`. -/
def serVal : Json → List Char
  | .null => ("null").data
  | .bool true => ("true").data
  | .bool false => ("false").data
  | .num n => intDigits n
  | .str s => '"' :: s.data ++ ['"']
  | .arr a => '[' :: serArrAll a
  | .obj o => '{' :: serObjAll o

/-- Serialize the elements of an array together with the closing bracket. -/
def serArrAll : JsonArr → List Char
  | .nil => [']']
  | .cons h t => serVal h ++ serArrRest t

/-- Serialize the remaining elements of an array, each preceded by a comma,
then the closing bracket. -/
def serArrRest : JsonArr → List Char
  | .nil => [']']
  | .cons h t => ',' :: (serVal h ++ serArrRest t)

/-- Serialize the fields of an object together with the closing brace. -/
def serObjAll : JsonObj → List Char
  | .nil => ['}']
  | .cons k v t => '"' :: k.data ++ '"' :: ':' :: (serVal v ++ serObjRest t)

/-- Serialize the remaining fields of an object, each preceded by a comma,
then the closing brace. -/
def serObjRest : JsonObj → List Char
  | .nil => ['}']
  | .cons k v t => ',' :: '"' :: k.data ++ '"' :: ':' :: (serVal v ++ serObjRest t)
end

/-- `json.dumps` on a JSON value, as a string. -/
def serialize (j : Json) : String :=
  String.mk (serVal j)

/-- The whitespace characters `json.loads` skips between tokens. -/
def isJsonWs (c : Char) : Bool :=
  c = ' ' || c = '\t' || c = '\n' || c = '\r'

/-- Skip JSON whitespace. -/
def skipWs (cs : List Char) : List Char :=
  cs.dropWhile isJsonWs

/-- Read a JSON string body (no escape sequences): everything up to the next
quote. -/
def readStr (cs : List Char) : Option (String × List Char) :=
  match cs.dropWhile (fun c => !(c = '"')) with
  | '"' :: rest => some (String.mk (cs.takeWhile (fun c => !(c = '"'))), rest)
  | _ => none

/-- Numeric value of a list of decimal digits. -/
def digitsToNat (ds : List Char) : Nat :=
  ds.foldl (fun a c => a * 10 + (c.toNat - 48)) 0

/-- Read a maximal nonempty run of decimal digits. -/
def readNat (cs : List Char) : Option (Nat × List Char) :=
  match cs.takeWhile Char.isDigit with
  | [] => none
  | ds => some (digitsToNat ds, cs.dropWhile Char.isDigit)

mutual
/-- Fuel-based recursive-descent reader for a JSON value, modelling
`json.loads` on the fragment described in the header. -/
def readVal : Nat → List Char → Option (Json × List Char)
  | 0, _ => none
  | fuel + 1, cs =>
      match skipWs cs with
      | '{' :: rest => (readObjAll fuel rest).map (fun p => (Json.obj p.1, p.2))
      | '[' :: rest => (readArrAll fuel rest).map (fun p => (Json.arr p.1, p.2))
      | '"' :: rest => (readStr rest).map (fun p => (Json.str p.1, p.2))
      | 'n' :: 'u' :: 'l' :: 'l' :: rest => some (Json.null, rest)
      | 't' :: 'r' :: 'u' :: 'e' :: rest => some (Json.bool true, rest)
      | 'f' :: 'a' :: 'l' :: 's' :: 'e' :: rest => some (Json.bool false, rest)
      | '-' :: rest => (readNat rest).map (fun p => (Json.num (-(p.1 : Int)), p.2))
      | c :: rest =>
          if c.isDigit then (readNat (c :: rest)).map (fun p => (Json.num (p.1 : Int), p.2))
          else none
      | [] => none

/-- Read the elements of an array after the opening bracket. -/
def readArrAll : Nat → List Char → Option (JsonArr × List Char)
  | 0, _ => none
  | fuel + 1, cs =>
      match skipWs cs with
      | ']' :: rest => some (.nil, rest)
      | other =>
          match readVal fuel other with
          | none => none
          | some (v, rest) =>
              match readArrRest fuel rest with
              | none => none
              | some (t, rest2) => some (.cons v t, rest2)

/-- Read the remaining elements of an array: a comma followed by an element,
or the closing bracket. -/
def readArrRest : Nat → List Char → Option (JsonArr × List Char)
  | 0, _ => none
  | fuel + 1, cs =>
      match skipWs cs with
      | ']' :: rest => some (.nil, rest)
      | ',' :: rest =>
          match readVal fuel rest with
          | none => none
          | some (v, rest2) =>
              match readArrRest fuel rest2 with
              | none => none
              | some (t, rest3) => some (.cons v t, rest3)
      | _ => none

/-- Read the fields of an object after the opening brace. -/
def readObjAll : Nat → List Char → Option (JsonObj × List Char)
  | 0, _ => none
  | fuel + 1, cs =>
      match skipWs cs with
      | '}' :: rest => some (.nil, rest)
      | '"' :: rest =>
          match readStr rest with
          | none => none
          | some (k, rest2) =>
              match skipWs rest2 with
              | ':' :: rest3 =>
                  match readVal fuel rest3 with
                  | none => none
                  | some (v, rest4) =>
                      match readObjRest fuel rest4 with
                      | none => none
                      | some (t, rest5) => some (.cons k v t, rest5)
              | _ => none
      | _ => none

/-- Read the remaining fields of an object: a comma followed by a field, or
the closing brace. -/
def readObjRest : Nat → List Char → Option (JsonObj × List Char)
  | 0, _ => none
  | fuel + 1, cs =>
      match skipWs cs with
      | '}' :: rest => some (.nil, rest)
      | ',' :: rest =>
          match skipWs rest with
          | '"' :: rest1 =>
              match readStr rest1 with
              | none => none
              | some (k, rest2) =>
                  match skipWs rest2 with
                  | ':' :: rest3 =>
                      match readVal fuel rest3 with
                      | none => none
                      | some (v, rest4) =>
                          match readObjRest fuel rest4 with
                          | none => none
                          | some (t, rest5) => some (.cons k v t, rest5)
                  | _ => none
          | _ => none
      | _ => none
end

/-- `json.loads` on a character list: read one value and require only
whitespace to remain.  The fuel `2 * length + 2` covers any value a text of
this length can denote (each recursion level of the reader consumes at
least one character every two levels). -/
def parseJsonChars (cs : List Char) : Option Json :=
  match readVal (2 * cs.length + 2) cs with
  | some (j, rest) => if skipWs rest = [] then some j else none
  | none => none

/-- `json.loads` on a whole string. -/
def parseJson (s : String) : Option Json :=
  parseJsonChars s.data

/-! ### Python string helpers used by `output_validators.py` -/

/-- The whitespace characters Python `str.strip` removes. -/
def isPyWs (c : Char) : Bool :=
  c = ' ' || c = '\t' || c = '\n' || c = '\r' || c = '\x0b' || c = '\x0c'

/-- Python `str.strip()`. -/
def pyStrip (s : String) : String :=
  String.mk (((s.data.dropWhile isPyWs).reverse.dropWhile isPyWs).reverse)

/-- Whether the first list is an initial segment of the second. -/
def leadsWith : List Char → List Char → Bool
  | [], _ => true
  | _ :: _, [] => false
  | a :: as, b :: bs => a = b && leadsWith as bs

/-- Python `needle in haystack` on strings: contiguous subsequence test. -/
def containsSeq (needle : List Char) : List Char → Bool
  | [] => needle.isEmpty
  | c :: rest => leadsWith needle (c :: rest) || containsSeq needle rest

/-- Python `sub in s` for strings. -/
def pyIn (needle s : String) : Bool :=
  containsSeq needle.data s.data

/-- Lower-case one ASCII character. -/
def lowerChar (c : Char) : Char :=
  if 'A' ≤ c && c ≤ 'Z' then Char.ofNat (c.toNat + 32) else c

/-- Python `str.lower()` (ASCII). -/
def pyLower (s : String) : String :=
  String.mk (s.data.map lowerChar)

/-- Python `str.isdigit()` on ASCII text: nonempty and all decimal digits. -/
def pyIsDigitStr (s : String) : Bool :=
  !s.data.isEmpty && s.data.all Char.isDigit

/-- Python `s.replace(".", "")`. -/
def removeDots (s : String) : String :=
  String.mk (s.data.filter (fun c => !(c = '.')))

/-- Python `float(s)` for the strings reaching it in
`_validate_data_quality`: all characters are digits or dots and at least one
digit is present.  The value is an exact nonnegative decimal, represented as
`(scaled numerator, number of fraction digits)`, i.e. the rational
`fst / 10 ^ snd`.  `none` models the `ValueError` raised when the literal
holds two or more dots. -/
def pyFloat? (s : String) : Option (Nat × Nat) :=
  match s.data.splitOn '.' with
  | [a] => some (digitsToNat a, 0)
  | [a, b] => some (digitsToNat a * 10 ^ b.length + digitsToNat b, b.length)
  | _ => none

/-- Whether the decimal `v.fst / 10 ^ v.snd` exceeds the natural bound. -/
def decValGt (v : Nat × Nat) (bound : Nat) : Bool :=
  v.1 > bound * 10 ^ v.2

/-- Index of the first occurrence of a character. -/
def charIdx (c : Char) : List Char → Option Nat
  | [] => none
  | d :: rest => if d = c then some 0 else (charIdx c rest).map (· + 1)

/-- Python `str.find(c)`: index of the first occurrence. -/
def pyFind (c : Char) (cs : List Char) : Option Nat :=
  charIdx c cs

/-- Python `str.rfind(c)`: index of the last occurrence. -/
def pyRFind (c : Char) (cs : List Char) : Option Nat :=
  match charIdx c cs.reverse with
  | none => none
  | some i => some (cs.length - 1 - i)

/-! ### `OutputValidator` (`app/services/output_validators.py`) -/

/-- The eight required top-level sections
(`output_validators.py`, `required_sections`). -/
def required_sections : List String :=
  ["analysis_metadata", "market_assessment", "competitive_landscape",
   "uniqueness_analysis", "business_viability", "risk_assessment",
   "value_enhancement_roadmap", "strategic_recommendations"]

/-- The per-section critical fields
(`output_validators.py`, `critical_fields`). -/
def critical_fields : List (String × List String) :=
  [("analysis_metadata", ["confidence_score", "analysis_depth", "data_sources_used"]),
   ("market_assessment", ["overall_score", "verdict", "market_saturation"]),
   ("uniqueness_analysis", ["novelty_score", "copycat_risk", "unique_value_proposition"]),
   ("business_viability", ["customer_value_proposition", "target_market_size"]),
   ("risk_assessment", ["risk_level", "mitigation_strategies"]),
   ("strategic_recommendations", ["next_steps", "market_entry_strategy"])]

/-- First loop of `_validate_schema_structure`: every required section is
present and is an object; the first violation is reported. -/
def checkSections : List String → JsonObj → Option String
  | [], _ => none
  | s :: rest, data =>
      match data.get s with
      | none => some ("Missing required section: " ++ s)
      | some (Json.obj _) => checkSections rest data
      | some _ => some ("Section " ++ s ++ " must be an object")

/-- Presence of each critical field of one section. -/
def checkFields (sec : String) (o : JsonObj) : List String → Option String
  | [] => none
  | f :: rest =>
      if o.hasKey f then checkFields sec o rest
      else some ("Missing critical field: " ++ sec ++ "." ++ f)

/-- Second loop of `_validate_schema_structure`.  The default branch is
unreachable when called after `checkSections` has succeeded, since every
critical section is one of the required sections and hence an object. -/
def checkCritical : List (String × List String) → JsonObj → Option String
  | [], _ => none
  | (sec, fs) :: rest, data =>
      match data.get sec with
      | some (Json.obj o) =>
          match checkFields sec o fs with
          | some e => some e
          | none => checkCritical rest data
      | _ => checkCritical rest data

/-- `OutputValidator._validate_schema_structure`: `none` means the structure
is valid, `some msg` carries the failure message. -/
def validate_schema_structure (data : JsonObj) : Option String :=
  match checkSections required_sections data with
  | some e => some e
  | none => checkCritical critical_fields data

/-- The generic placeholder values of `_validate_data_quality`. -/
def placeholder_values : List String :=
  ["N/A", "None", "TBD", "To be determined"]

/-- The template-echo patterns of `_validate_data_quality`. -/
def generic_patterns : List String :=
  ["Factor 1", "Factor 2", "Strength 1", "Strength 2",
   "Weakness 1", "Weakness 2", "Pain point 1", "Pain point 2",
   "Gap 1", "Gap 2", "Risk 1", "Risk 2", "Strategy 1", "Strategy 2",
   "Opportunity 1", "Opportunity 2", "Approach 1", "Approach 2",
   "Recommendation 1", "Recommendation 2", "Action 1", "Action 2",
   "Insight 1", "Insight 2", "Intelligence 1", "Intelligence 2",
   "Suggestion 1", "Suggestion 2", "Phase 1", "Phase 2"]

/-- The generic template statements of `_validate_data_quality`. -/
def generic_statements : List String :=
  ["Clear statement of unique value",
   "Brief competitive overview",
   "Specific pricing approach",
   "Detailed analysis of market saturation",
   "Clear problem-solution fit description",
   "Unit economics assessment"]

/-- Issues raised for a single field value by the per-field scan of
`_validate_data_quality` (the if/elif chain followed by the two pattern
loops, each of which reports at most its first hit). -/
def fieldIssues (secName fieldName : String) (v : Json) : List String :=
  let chain :=
    match v with
    | .str s =>
        if (pyStrip s).length < 10 then
          [secName ++ "." ++ fieldName ++ ": Content too short"]
        else if placeholder_values.contains s then
          [secName ++ "." ++ s ++ ": Generic placeholder value"]
        else []
    | .arr .nil => [secName ++ "." ++ fieldName ++ ": Empty list"]
    | _ => []
  let patterns :=
    match v with
    | .str s =>
        (match generic_patterns.find? (fun p => pyIn p s) with
         | some p =>
             [secName ++ "." ++ fieldName ++ ": Contains generic example value \x27" ++
              p ++ "\x27"]
         | none => []) ++
        (match generic_statements.find? (fun t => pyIn (pyLower t) (pyLower s)) with
         | some _ => [secName ++ "." ++ fieldName ++ ": Contains generic template text"]
         | none => [])
    | _ => []
  chain ++ patterns

/-- Per-field scan over the fields of one section. -/
def objFieldIssues (sName : String) : JsonObj → List String
  | .nil => []
  | .cons f v t => fieldIssues sName f v ++ objFieldIssues sName t

/-- Per-field scan over all sections (non-object sections are skipped by the
`isinstance(section_data, dict)` guard). -/
def allFieldIssues : JsonObj → List String
  | .nil => []
  | .cons sName sData t =>
      (match sData with
       | .obj o => objFieldIssues sName o
       | _ => []) ++ allFieldIssues t

/-- The `market_assessment.overall_score` check of `_validate_data_quality`.
`none` models an uncaught exception (attribute access on a non-dict
section).  Booleans are `int` instances in Python with values 0/1, always in
range, so they produce no issue, like here. -/
def overallScoreIssues (data : JsonObj) : Option (List String) :=
  match data.get "market_assessment" with
  | none => some []
  | some (Json.obj m) =>
      match m.get "overall_score" with
      | none => some []
      | some (Json.str s) =>
          if pyIn "calculated score from 0-100" (pyLower s) ||
             pyIn "your assessment" (pyLower s) then
            some ["market_assessment.overall_score: Contains copied example text instead of actual score"]
          else if pyIsDigitStr s then
            some (if (digitsToNat s.data : Int) < 0 || (digitsToNat s.data : Int) > 100 then
              ["market_assessment.overall_score: Score out of range (0-100)"] else [])
          else
            some ["market_assessment.overall_score: Should be a numeric value, not text"]
      | some (Json.num n) =>
          some (if n < 0 || n > 100 then
            ["market_assessment.overall_score: Score out of range (0-100)"] else [])
      | some _ => some []
  | some _ => none

/-- The `uniqueness_analysis.novelty_score` check.  `none` models an
uncaught exception: either attribute access on a non-dict section, or the
`ValueError` from `float(novelty)` when the dot-stripped digit test passes
but the literal holds two or more dots. -/
def noveltyScoreIssues (data : JsonObj) : Option (List String) :=
  match data.get "uniqueness_analysis" with
  | none => some []
  | some (Json.obj u) =>
      match u.get "novelty_score" with
      | none => some []
      | some (Json.str s) =>
          if pyIn "calculated score from 0-10" (pyLower s) ||
             pyIn "your assessment" (pyLower s) then
            some ["uniqueness_analysis.novelty_score: Contains copied example text instead of actual score"]
          else if pyIsDigitStr (removeDots s) then
            match pyFloat? s with
            | none => none
            | some q =>
                -- the converted literal is nonnegative, so only the upper
                -- bound of `novelty < 0 or novelty > 10` can fire
                some (if decValGt q 10 then
                  ["uniqueness_analysis.novelty_score: Novelty score out of range (0-10)"] else [])
          else
            some ["uniqueness_analysis.novelty_score: Should be a numeric value, not text"]
      | some (Json.num n) =>
          some (if n < 0 || n > 10 then
            ["uniqueness_analysis.novelty_score: Novelty score out of range (0-10)"] else [])
      | some _ => some []
  | some _ => none

/-- The `analysis_metadata.confidence_score` check; same exception model as
the novelty check. -/
def confidenceScoreIssues (data : JsonObj) : Option (List String) :=
  match data.get "analysis_metadata" with
  | none => some []
  | some (Json.obj m) =>
      match m.get "confidence_score" with
      | none => some []
      | some (Json.str s) =>
          if pyIn "calculated value between 0 and 1" (pyLower s) ||
             pyIn "your assessment" (pyLower s) then
            some ["analysis_metadata.confidence_score: Contains copied example text instead of actual score"]
          else if pyIsDigitStr (removeDots s) then
            match pyFloat? s with
            | none => none
            | some q =>
                -- the converted literal is nonnegative, so only the upper
                -- bound of `confidence < 0 or confidence > 1` can fire
                some (if decValGt q 1 then
                  ["analysis_metadata.confidence_score: Confidence score out of range (0-1)"] else [])
          else
            some ["analysis_metadata.confidence_score: Should be a numeric value, not text"]
      | some (Json.num n) =>
          some (if n < 0 || n > 1 then
            ["analysis_metadata.confidence_score: Confidence score out of range (0-1)"] else [])
      | some _ => some []
  | some _ => none

/-- `OutputValidator._validate_data_quality`: the collected advisory issue
list, or `none` when the function raises (which the caller turns into a
`Validation error:` failure). -/
def validate_data_quality (data : JsonObj) : Option (List String) :=
  match overallScoreIssues data with
  | none => none
  | some i1 =>
      match noveltyScoreIssues data with
      | none => none
      | some i2 =>
          match confidenceScoreIssues data with
          | none => none
          | some i3 => some (allFieldIssues data ++ i1 ++ i2 ++ i3)

/-- The slice `response_text[json_start : json_end + 1]` between the first
brace and the last closing brace, or `none` when either is absent. -/
def extractJsonText (t : String) : Option (List Char) :=
  match pyFind '{' t.data, pyRFind '}' t.data with
  | some i, some j => some ((t.data.drop i).take (j + 1 - i))
  | _, _ => none

/-- The parsed object the validator works on: extract the brace-delimited
slice and parse it.  The slice, when it parses, always parses to an object
because it starts with a brace. -/
def parsedObjOf (t : String) : Option JsonObj :=
  match extractJsonText t with
  | none => none
  | some sub =>
      match parseJsonChars sub with
      | some (Json.obj o) => some o
      | _ => none

/-- `OutputValidator.validate_comprehensive_analysis`: the
`(is_valid, parsed_data, error_message)` triple.  The source wraps the body
in a broad `except` clause, so the function never raises; the quality-check
crash is caught there and surfaces as a `Validation error:` message. -/
def validate_comprehensive_analysis (response_text : String) :
    Bool × Option Json × Option String :=
  if pyStrip response_text = "" then
    (false, none, some "Empty response from LLM")
  else
    match extractJsonText response_text with
    | none => (false, none, some "No JSON structure found in response")
    | some sub =>
        match parseJsonChars sub with
        | some (Json.obj o) =>
            match validate_schema_structure o with
            | some msg => (false, none, some ("Schema validation failed: " ++ msg))
            | none =>
                match validate_data_quality o with
                | none =>
                    (false, none,
                     some "Validation error: could not convert string to float")
                | some _ => (true, some (Json.obj o), none)
        | _ => (false, none, some "JSON parsing failed")

/-! ### Failure causes of `validate_comprehensive_analysis`

One boolean predicate per terminal failure cause, phrased as a cascade so
that together they characterise exactly when the validator reports
`ok = false`. -/

/-- Failure cause 1: the text is empty or whitespace. -/
def condEmpty (t : String) : Bool :=
  pyStrip t = ""

/-- Failure cause 2: no brace-delimited JSON structure. -/
def condNoBraces (t : String) : Bool :=
  !condEmpty t && (extractJsonText t).isNone

/-- Failure cause 3: the brace-delimited slice does not parse. -/
def condParseFail (t : String) : Bool :=
  !condEmpty t && (extractJsonText t).isSome && (parsedObjOf t).isNone

/-- Failure cause 4: a required top-level section is absent or not an
object. -/
def condMissingSection (t : String) : Bool :=
  match parsedObjOf t with
  | some o => (checkSections required_sections o).isSome
  | none => false

/-- Failure cause 5: a declared critical field of a section is absent. -/
def condMissingCritical (t : String) : Bool :=
  match parsedObjOf t with
  | some o =>
      (checkSections required_sections o).isNone &&
      (checkCritical critical_fields o).isSome
  | none => false

/-- Failure cause 6 (not among the five the specification enumerates): the
quality check raises while coercing a numeric field given as a digits-and-
dots string with two or more dots, and the broad `except` clause converts
the crash into a terminal `Validation error:` failure. -/
def condQualityCrash (t : String) : Bool :=
  match parsedObjOf t with
  | some o =>
      (validate_schema_structure o).isNone && (validate_data_quality o).isNone
  | none => false

/-! ### Concrete analysis payloads used as test vectors -/

/-- Build a `JsonObj` from an association list. -/
def jobj : List (String × Json) → JsonObj
  | [] => .nil
  | (k, v) :: t => .cons k v (jobj t)

/-- Build a `JsonArr` from a list. -/
def jarr : List Json → JsonArr
  | [] => .nil
  | v :: t => .cons v (jarr t)

/-- A complete analysis object carrying all eight required sections and
every critical field, parameterised by the three numeric score fields. -/
def mkAnalysisObj (score novelty confidence : Json) : JsonObj :=
  (jobj
    [("analysis_metadata", Json.obj (jobj
        [("confidence_score", confidence),
         ("analysis_depth", .str "comprehensive analysis"),
         ("data_sources_used", .arr (jarr [.str "google_trends"]))])),
     ("market_assessment", Json.obj (jobj
        [("overall_score", score),
         ("verdict", .str "Promising market"),
         ("market_saturation", .str "Moderately saturated market")])),
     ("competitive_landscape", Json.obj (jobj [])),
     ("uniqueness_analysis", Json.obj (jobj
        [("novelty_score", novelty),
         ("copycat_risk", .str "Medium copycat risk"),
         ("unique_value_proposition", .str "A clearly different value offer")])),
     ("business_viability", Json.obj (jobj
        [("customer_value_proposition", .str "Saves users time and money"),
         ("target_market_size", .str "Large and growing market")])),
     ("risk_assessment", Json.obj (jobj
        [("risk_level", .str "Medium level"),
         ("mitigation_strategies", .arr (jarr [.str "Diversify acquisition channels"]))])),
     ("value_enhancement_roadmap", Json.obj (jobj [])),
     ("strategic_recommendations", Json.obj (jobj
        [("next_steps", .arr (jarr [.str "Build a prototype quickly"])),
         ("market_entry_strategy", .str "Enter a niche market first")]))])

/-- The same complete analysis as a JSON value. -/
def mkAnalysis (score novelty confidence : Json) : Json :=
  Json.obj (mkAnalysisObj score novelty confidence)

/-- A fully valid analysis with in-range numeric scores. -/
def goodAnalysis : Json := mkAnalysis (.num 72) (.num 7) (.num 1)

/-- Identical to `goodAnalysis` except that the novelty score is the string
`1.2.3`: dot-stripped it passes `isdigit`, yet `float` rejects it. -/
def crashAnalysis : Json := mkAnalysis (.num 72) (.str "1.2.3") (.num 1)

/-- Identical to `goodAnalysis` except that the overall score carries the
prompt's instructional text instead of a number. -/
def copiedAnalysis : Json :=
  mkAnalysis (.str "A calculated score from 0-100, where higher is better") (.num 7) (.num 1)

/-- Identical to `goodAnalysis` except that the overall score is the
out-of-range value 150. -/
def rangeAnalysis : Json := mkAnalysis (.num 150) (.num 7) (.num 1)

/-! ### Round-trip: the reader inverts the serializer -/

mutual
/-- Structural size of a JSON value, a fuel bound for the reader. -/
def jsize : Json → Nat
  | .null | .bool _ | .num _ | .str _ => 1
  | .arr a => asize a + 1
  | .obj o => osize o + 1

/-- Structural size of an array spine. -/
def asize : JsonArr → Nat
  | .nil => 1
  | .cons h t => jsize h + asize t + 1

/-- Structural size of an object spine. -/
def osize : JsonObj → Nat
  | .nil => 1
  | .cons _ v t => jsize v + osize t + 1
end

/-- A string the serializer renders reversibly: no quote characters. -/
def noQuote (s : String) : Bool :=
  s.data.all (fun c => !(c = '"'))

mutual
/-- All strings (keys and values) in the JSON value are quote-free, so its
serialization parses back. -/
def serializableVal : Json → Bool
  | .null | .bool _ | .num _ => true
  | .str s => noQuote s
  | .arr a => serializableArr a
  | .obj o => serializableObj o

/-- `serializableVal` on an array spine. -/
def serializableArr : JsonArr → Bool
  | .nil => true
  | .cons h t => serializableVal h && serializableArr t

/-- `serializableVal` on an object spine. -/
def serializableObj : JsonObj → Bool
  | .nil => true
  | .cons k v t => noQuote k && serializableVal v && serializableObj t
end

/-- The reader never starts a number right after a serialized value, so the
continuation must not begin with a digit. -/
def notDigitHead : List Char → Prop
  | [] => True
  | c :: _ => c.isDigit = false

/-- The ten decimal digit characters. -/
def decimalChars : List Char :=
  ['0', '1', '2', '3', '4', '5', '6', '7', '8', '9']

theorem digitChar_mem_decimalChars {d : Nat} (h : d < 10) :
    digitChar d ∈ decimalChars := by
  interval_cases d <;> decide

theorem decimalChars_isDigit {c : Char} (h : c ∈ decimalChars) :
    c.isDigit = true := by
  fin_cases h <;> decide

theorem digitChar_val {d : Nat} (h : d < 10) : (digitChar d).toNat - 48 = d := by
  interval_cases d <;> decide

theorem natDigitsAux_mem {fuel n : Nat} (h : n < fuel) :
    ∀ c ∈ natDigitsAux fuel n, c ∈ decimalChars := by
  induction fuel generalizing n with
  | zero => omega
  | succ fuel ih =>
      intro c hc
      rw [natDigitsAux] at hc
      by_cases h10 : n < 10
      · simp only [if_pos h10, List.mem_singleton] at hc
        exact hc ▸ digitChar_mem_decimalChars h10
      · simp only [if_neg h10, List.mem_append, List.mem_singleton] at hc
        rcases hc with hc | hc
        · exact ih (by omega) c hc
        · exact hc ▸ digitChar_mem_decimalChars (Nat.mod_lt _ (by omega))

theorem natDigitsAux_ne_nil {fuel n : Nat} (h : n < fuel) :
    natDigitsAux fuel n ≠ [] := by
  cases fuel with
  | zero => omega
  | succ fuel =>
      rw [natDigitsAux]
      by_cases h10 : n < 10
      · simp [if_pos h10]
      · simp [if_neg h10]

theorem digitsToNat_append_single (xs : List Char) (c : Char) :
    digitsToNat (xs ++ [c]) = 10 * digitsToNat xs + (c.toNat - 48) := by
  simp [digitsToNat, List.foldl_append, Nat.mul_comm]

theorem digitsToNat_natDigitsAux {fuel n : Nat} (h : n < fuel) :
    digitsToNat (natDigitsAux fuel n) = n := by
  induction fuel generalizing n with
  | zero => omega
  | succ fuel ih =>
      rw [natDigitsAux]
      by_cases h10 : n < 10
      · simp only [if_pos h10]
        have := digitChar_val h10
        simp [digitsToNat]
        omega
      · simp only [if_neg h10]
        rw [digitsToNat_append_single, ih (by omega),
            digitChar_val (Nat.mod_lt _ (by omega))]
        omega

theorem digitsToNat_natDigits (n : Nat) : digitsToNat (natDigits n) = n :=
  digitsToNat_natDigitsAux (Nat.lt_succ_self n)

theorem takeWhile_append_of_all {p : Char → Bool} :
    ∀ (xs ys : List Char), (∀ x ∈ xs, p x = true) →
    List.takeWhile p (xs ++ ys) = xs ++ List.takeWhile p ys := by
  intro xs ys h
  induction xs with
  | nil => rfl
  | cons x xs ih =>
      simp only [List.cons_append, List.takeWhile_cons,
        h x (by simp), ih (fun y hy => h y (by simp [hy]))]
      simp

theorem dropWhile_append_of_all {p : Char → Bool} :
    ∀ (xs ys : List Char), (∀ x ∈ xs, p x = true) →
    List.dropWhile p (xs ++ ys) = List.dropWhile p ys := by
  intro xs ys h
  induction xs with
  | nil => rfl
  | cons x xs ih =>
      simp only [List.cons_append, List.dropWhile_cons,
        h x (by simp), ih (fun y hy => h y (by simp [hy])), if_true]

theorem dropWhile_cons_of_neg {p : Char → Bool} {c : Char} (cs : List Char)
    (h : p c = false) : List.dropWhile p (c :: cs) = c :: cs := by
  simp [List.dropWhile_cons, h]

theorem takeWhile_cons_of_neg {p : Char → Bool} {c : Char} (cs : List Char)
    (h : p c = false) : List.takeWhile p (c :: cs) = [] := by
  simp [List.takeWhile_cons, h]

theorem skipWs_cons_of_neg {c : Char} (cs : List Char) (h : isJsonWs c = false) :
    skipWs (c :: cs) = c :: cs :=
  dropWhile_cons_of_neg cs h

theorem readNat_natDigits (n : Nat) (rest : List Char) (h : notDigitHead rest) :
    readNat (natDigits n ++ rest) = some (n, rest) := by
  have hmem : ∀ c ∈ natDigits n, Char.isDigit c = true := fun c hc =>
    decimalChars_isDigit (natDigitsAux_mem (Nat.lt_succ_self n) c hc)
  have htake : List.takeWhile Char.isDigit (natDigits n ++ rest) = natDigits n := by
    rw [takeWhile_append_of_all _ _ hmem]
    cases rest with
    | nil => simp
    | cons c cs => rw [takeWhile_cons_of_neg cs h, List.append_nil]
  have hdrop : List.dropWhile Char.isDigit (natDigits n ++ rest) = rest := by
    rw [dropWhile_append_of_all _ _ hmem]
    cases rest with
    | nil => rfl
    | cons c cs => exact dropWhile_cons_of_neg cs h
  obtain ⟨d, ds, hds⟩ := List.exists_cons_of_ne_nil
    (natDigitsAux_ne_nil (Nat.lt_succ_self n) : natDigits n ≠ [])
  have hds2 : natDigits n = d :: ds := hds
  rw [readNat, htake, hds2]
  dsimp only
  rw [← hds2, hdrop, digitsToNat_natDigits]

theorem readStr_append (s : String) (rest : List Char) (h : noQuote s = true) :
    readStr (s.data ++ '"' :: rest) = some (s, rest) := by
  have hall : ∀ c ∈ s.data, (fun c => !(c = '"')) c = true := by
    intro c hc
    have := List.all_eq_true.mp h c hc
    simpa using this
  rw [readStr, dropWhile_append_of_all _ _ hall,
      dropWhile_cons_of_neg rest (by simp),
      takeWhile_append_of_all _ _ hall,
      takeWhile_cons_of_neg rest (by simp), List.append_nil]
  rfl

theorem natDigits_cons (n : Nat) :
    ∃ d ds, natDigits n = d :: ds ∧ d ∈ decimalChars := by
  obtain ⟨d, ds, hds⟩ := List.exists_cons_of_ne_nil
    (natDigitsAux_ne_nil (Nat.lt_succ_self n) : natDigits n ≠ [])
  refine ⟨d, ds, hds, natDigitsAux_mem (Nat.lt_succ_self n) d ?_⟩
  rw [(hds : natDigits n = d :: ds)]
  simp

theorem decimalChars_facts {c : Char} (h : c ∈ decimalChars) :
    isJsonWs c = false ∧ ¬(c = ']') := by
  fin_cases h <;> exact ⟨by decide, by decide⟩

/-- The serialization of any value starts with a character that is neither
whitespace nor a closing bracket, so an array element is read where the
reader expects one. -/
theorem serVal_cons (j : Json) :
    ∃ c cs, serVal j = c :: cs ∧ isJsonWs c = false ∧ ¬(c = ']') := by
  cases j with
  | null => exact ⟨'n', _, rfl, by decide, by decide⟩
  | bool b =>
      cases b with
      | false => exact ⟨'f', _, rfl, by decide, by decide⟩
      | true => exact ⟨'t', _, rfl, by decide, by decide⟩
  | num n =>
      by_cases hn : n < 0
      · refine ⟨'-', natDigits n.natAbs, ?_, by decide, by decide⟩
        show intDigits n = '-' :: natDigits n.natAbs
        unfold intDigits
        rw [if_pos hn]
      · obtain ⟨d, ds, hds, hdm⟩ := natDigits_cons n.toNat
        obtain ⟨h1, h2⟩ := decimalChars_facts hdm
        refine ⟨d, ds, ?_, h1, h2⟩
        show intDigits n = d :: ds
        unfold intDigits
        rw [if_neg hn, hds]
  | str s => exact ⟨'"', _, rfl, by decide, by decide⟩
  | arr a => exact ⟨'[', _, rfl, by decide, by decide⟩
  | obj o => exact ⟨'{', _, rfl, by decide, by decide⟩

theorem serArrRest_notDigitHead (t : JsonArr) (rest : List Char) :
    notDigitHead (serArrRest t ++ rest) := by
  cases t with
  | nil => exact (by decide : (']').isDigit = false)
  | cons h t => exact (by decide : (',').isDigit = false)

theorem serObjRest_notDigitHead (t : JsonObj) (rest : List Char) :
    notDigitHead (serObjRest t ++ rest) := by
  cases t with
  | nil => exact (by decide : ('}').isDigit = false)
  | cons k v t => exact (by decide : (',').isDigit = false)

theorem readVal_digitHead (fuel : Nat) (c : Char) (cs : List Char)
    (hc : c ∈ decimalChars) :
    readVal (fuel + 1) (c :: cs) =
      (readNat (c :: cs)).map (fun p => (Json.num (p.1 : Int), p.2)) := by
  fin_cases hc <;> rfl

theorem readArrAll_step (fuel : Nat) (c : Char) (cs : List Char)
    (hws : isJsonWs c = false) (hc : ¬(c = ']')) :
    readArrAll (fuel + 1) (c :: cs) =
      (match readVal fuel (c :: cs) with
       | none => none
       | some (v, rest) =>
           match readArrRest fuel rest with
           | none => none
           | some (t, rest2) => some (JsonArr.cons v t, rest2)) := by
  rw [readArrAll, skipWs_cons_of_neg _ hws]
  split
  · rename_i heq
    rw [List.cons.injEq] at heq
    exact absurd heq.1 hc
  · rfl

mutual
/-- Core round-trip lemma: reading the serialization of a value, followed by
any non-digit-headed continuation, returns exactly that value. -/
theorem readVal_serVal : ∀ (j : Json) (fuel : Nat) (rest : List Char),
    jsize j ≤ fuel → serializableVal j = true → notDigitHead rest →
    readVal fuel (serVal j ++ rest) = some (j, rest)
  | .null, fuel, rest, hf, _, _ => by
      have h1 : 1 ≤ fuel := hf
      obtain ⟨f, rfl⟩ : ∃ f, fuel = f + 1 := ⟨fuel - 1, by omega⟩
      rfl
  | .bool true, fuel, rest, hf, _, _ => by
      have h1 : 1 ≤ fuel := hf
      obtain ⟨f, rfl⟩ : ∃ f, fuel = f + 1 := ⟨fuel - 1, by omega⟩
      rfl
  | .bool false, fuel, rest, hf, _, _ => by
      have h1 : 1 ≤ fuel := hf
      obtain ⟨f, rfl⟩ : ∃ f, fuel = f + 1 := ⟨fuel - 1, by omega⟩
      rfl
  | .num n, fuel, rest, hf, _, hr => by
      have h1 : 1 ≤ fuel := hf
      obtain ⟨f, rfl⟩ : ∃ f, fuel = f + 1 := ⟨fuel - 1, by omega⟩
      show readVal (f + 1) (intDigits n ++ rest) = some (.num n, rest)
      unfold intDigits
      by_cases hn : n < 0
      · rw [if_pos hn, List.cons_append]
        have step : readVal (f + 1) ('-' :: (natDigits n.natAbs ++ rest)) =
            (readNat (natDigits n.natAbs ++ rest)).map
              (fun p => (Json.num (-(p.1 : Int)), p.2)) := rfl
        rw [step, readNat_natDigits _ _ hr]
        have hn2 : -((n.natAbs : Nat) : Int) = n := by omega
        show some (Json.num (-((n.natAbs : Nat) : Int)), rest) = some (Json.num n, rest)
        rw [hn2]
      · rw [if_neg hn]
        obtain ⟨d, ds, hds, hdm⟩ := natDigits_cons n.toNat
        rw [hds, List.cons_append, readVal_digitHead f d _ hdm,
            ← List.cons_append, ← hds, readNat_natDigits _ _ hr]
        have hn2 : ((n.toNat : Nat) : Int) = n := by omega
        show some (Json.num ((n.toNat : Nat) : Int), rest) = some (Json.num n, rest)
        rw [hn2]
  | .str s, fuel, rest, hf, hs, _ => by
      have h1 : 1 ≤ fuel := hf
      obtain ⟨f, rfl⟩ : ∃ f, fuel = f + 1 := ⟨fuel - 1, by omega⟩
      show readVal (f + 1) (('"' :: (s.data ++ ['"'])) ++ rest) = some (.str s, rest)
      have harr : ('"' :: (s.data ++ ['"'])) ++ rest = '"' :: (s.data ++ '"' :: rest) := by
        simp
      have step : readVal (f + 1) ('"' :: (s.data ++ '"' :: rest)) =
          (readStr (s.data ++ '"' :: rest)).map (fun p => (Json.str p.1, p.2)) := rfl
      rw [harr, step, readStr_append s rest hs]
      rfl
  | .arr a, fuel, rest, hf, hs, hr => by
      have h1 : asize a + 1 ≤ fuel := hf
      obtain ⟨f, rfl⟩ : ∃ f, fuel = f + 1 := ⟨fuel - 1, by omega⟩
      show readVal (f + 1) (('[' :: serArrAll a) ++ rest) = some (.arr a, rest)
      have step : readVal (f + 1) ('[' :: (serArrAll a ++ rest)) =
          (readArrAll f (serArrAll a ++ rest)).map (fun p => (Json.arr p.1, p.2)) := rfl
      rw [List.cons_append, step, readArrAll_serArrAll a f rest (by omega) hs hr]
      rfl
  | .obj o, fuel, rest, hf, hs, hr => by
      have h1 : osize o + 1 ≤ fuel := hf
      obtain ⟨f, rfl⟩ : ∃ f, fuel = f + 1 := ⟨fuel - 1, by omega⟩
      show readVal (f + 1) (('{' :: serObjAll o) ++ rest) = some (.obj o, rest)
      have step : readVal (f + 1) ('{' :: (serObjAll o ++ rest)) =
          (readObjAll f (serObjAll o ++ rest)).map (fun p => (Json.obj p.1, p.2)) := rfl
      rw [List.cons_append, step, readObjAll_serObjAll o f rest (by omega) hs hr]
      rfl

/-- Round trip for the elements of an array, opening bracket consumed. -/
theorem readArrAll_serArrAll : ∀ (a : JsonArr) (fuel : Nat) (rest : List Char),
    asize a ≤ fuel → serializableArr a = true → notDigitHead rest →
    readArrAll fuel (serArrAll a ++ rest) = some (a, rest)
  | .nil, fuel, rest, hf, _, _ => by
      have h1 : 1 ≤ fuel := hf
      obtain ⟨f, rfl⟩ : ∃ f, fuel = f + 1 := ⟨fuel - 1, by omega⟩
      rfl
  | .cons h t, fuel, rest, hf, hs, hr => by
      have h1 : jsize h + asize t + 1 ≤ fuel := hf
      obtain ⟨f, rfl⟩ : ∃ f, fuel = f + 1 := ⟨fuel - 1, by omega⟩
      obtain ⟨hs1, hs2⟩ := Bool.and_eq_true_iff.mp hs
      show readArrAll (f + 1) ((serVal h ++ serArrRest t) ++ rest) = some (.cons h t, rest)
      rw [List.append_assoc]
      obtain ⟨c, cs, hcs, hws, hnb⟩ := serVal_cons h
      rw [hcs, List.cons_append, readArrAll_step f c _ hws hnb,
          ← List.cons_append, ← hcs,
          readVal_serVal h f _ (by omega) hs1 (serArrRest_notDigitHead t rest)]
      dsimp only
      rw [readArrRest_serArrRest t f rest (by omega) hs2 hr]

/-- Round trip for the tail of an array: a comma-led element sequence or the
closing bracket. -/
theorem readArrRest_serArrRest : ∀ (a : JsonArr) (fuel : Nat) (rest : List Char),
    asize a ≤ fuel → serializableArr a = true → notDigitHead rest →
    readArrRest fuel (serArrRest a ++ rest) = some (a, rest)
  | .nil, fuel, rest, hf, _, _ => by
      have h1 : 1 ≤ fuel := hf
      obtain ⟨f, rfl⟩ : ∃ f, fuel = f + 1 := ⟨fuel - 1, by omega⟩
      rfl
  | .cons h t, fuel, rest, hf, hs, hr => by
      have h1 : jsize h + asize t + 1 ≤ fuel := hf
      obtain ⟨f, rfl⟩ : ∃ f, fuel = f + 1 := ⟨fuel - 1, by omega⟩
      obtain ⟨hs1, hs2⟩ := Bool.and_eq_true_iff.mp hs
      show readArrRest (f + 1) ((',' :: (serVal h ++ serArrRest t)) ++ rest) =
        some (.cons h t, rest)
      have step : readArrRest (f + 1) (',' :: (serVal h ++ (serArrRest t ++ rest))) =
          (match readVal f (serVal h ++ (serArrRest t ++ rest)) with
           | none => none
           | some (v, rest2) =>
               match readArrRest f rest2 with
               | none => none
               | some (t2, rest3) => some (JsonArr.cons v t2, rest3)) := rfl
      rw [List.cons_append, List.append_assoc, step,
        readVal_serVal h f _ (by omega) hs1 (serArrRest_notDigitHead t rest)]
      dsimp only
      rw [readArrRest_serArrRest t f rest (by omega) hs2 hr]

/-- Round trip for the fields of an object, opening brace consumed. -/
theorem readObjAll_serObjAll : ∀ (o : JsonObj) (fuel : Nat) (rest : List Char),
    osize o ≤ fuel → serializableObj o = true → notDigitHead rest →
    readObjAll fuel (serObjAll o ++ rest) = some (o, rest)
  | .nil, fuel, rest, hf, _, _ => by
      have h1 : 1 ≤ fuel := hf
      obtain ⟨f, rfl⟩ : ∃ f, fuel = f + 1 := ⟨fuel - 1, by omega⟩
      rfl
  | .cons k v t, fuel, rest, hf, hs, hr => by
      have h1 : jsize v + osize t + 1 ≤ fuel := hf
      obtain ⟨f, rfl⟩ : ∃ f, fuel = f + 1 := ⟨fuel - 1, by omega⟩
      obtain ⟨hk, hs2⟩ := Bool.and_eq_true_iff.mp hs
      obtain ⟨hk1, hv⟩ := Bool.and_eq_true_iff.mp hk
      show readObjAll (f + 1)
          (('"' :: (k.data ++ '"' :: ':' :: (serVal v ++ serObjRest t))) ++ rest) =
        some (.cons k v t, rest)
      have harr : ('"' :: (k.data ++ '"' :: ':' :: (serVal v ++ serObjRest t))) ++ rest =
          '"' :: (k.data ++ '"' :: (':' :: (serVal v ++ (serObjRest t ++ rest)))) := by
        simp
      have step : readObjAll (f + 1)
            ('"' :: (k.data ++ '"' :: (':' :: (serVal v ++ (serObjRest t ++ rest))))) =
          (match readStr (k.data ++ '"' :: (':' :: (serVal v ++ (serObjRest t ++ rest)))) with
           | none => none
           | some (k2, rest2) =>
               match skipWs rest2 with
               | ':' :: rest3 =>
                   match readVal f rest3 with
                   | none => none
                   | some (v2, rest4) =>
                       match readObjRest f rest4 with
                       | none => none
                       | some (t2, rest5) => some (JsonObj.cons k2 v2 t2, rest5)
               | _ => none) := rfl
      rw [harr, step, readStr_append k _ hk1]
      show (match readVal f (serVal v ++ (serObjRest t ++ rest)) with
            | none => none
            | some (v2, rest4) =>
                match readObjRest f rest4 with
                | none => none
                | some (t2, rest5) => some (JsonObj.cons k v2 t2, rest5)) =
          some (JsonObj.cons k v t, rest)
      rw [readVal_serVal v f _ (by omega) hv (serObjRest_notDigitHead t rest)]
      dsimp only
      rw [readObjRest_serObjRest t f rest (by omega) hs2 hr]

/-- Round trip for the tail of an object: a comma-led field sequence or the
closing brace. -/
theorem readObjRest_serObjRest : ∀ (o : JsonObj) (fuel : Nat) (rest : List Char),
    osize o ≤ fuel → serializableObj o = true → notDigitHead rest →
    readObjRest fuel (serObjRest o ++ rest) = some (o, rest)
  | .nil, fuel, rest, hf, _, _ => by
      have h1 : 1 ≤ fuel := hf
      obtain ⟨f, rfl⟩ : ∃ f, fuel = f + 1 := ⟨fuel - 1, by omega⟩
      rfl
  | .cons k v t, fuel, rest, hf, hs, hr => by
      have h1 : jsize v + osize t + 1 ≤ fuel := hf
      obtain ⟨f, rfl⟩ : ∃ f, fuel = f + 1 := ⟨fuel - 1, by omega⟩
      obtain ⟨hk, hs2⟩ := Bool.and_eq_true_iff.mp hs
      obtain ⟨hk1, hv⟩ := Bool.and_eq_true_iff.mp hk
      show readObjRest (f + 1)
          ((',' :: '"' :: (k.data ++ '"' :: ':' :: (serVal v ++ serObjRest t))) ++ rest) =
        some (.cons k v t, rest)
      have harr : ((',' :: '"' :: (k.data ++ '"' :: ':' :: (serVal v ++ serObjRest t))) ++ rest) =
          ',' :: '"' :: (k.data ++ '"' :: (':' :: (serVal v ++ (serObjRest t ++ rest)))) := by
        simp
      have step : readObjRest (f + 1)
            (',' :: '"' :: (k.data ++ '"' :: (':' :: (serVal v ++ (serObjRest t ++ rest))))) =
          (match readStr (k.data ++ '"' :: (':' :: (serVal v ++ (serObjRest t ++ rest)))) with
           | none => none
           | some (k2, rest2) =>
               match skipWs rest2 with
               | ':' :: rest3 =>
                   match readVal f rest3 with
                   | none => none
                   | some (v2, rest4) =>
                       match readObjRest f rest4 with
                       | none => none
                       | some (t2, rest5) => some (JsonObj.cons k2 v2 t2, rest5)
               | _ => none) := rfl
      rw [harr, step, readStr_append k _ hk1]
      show (match readVal f (serVal v ++ (serObjRest t ++ rest)) with
            | none => none
            | some (v2, rest4) =>
                match readObjRest f rest4 with
                | none => none
                | some (t2, rest5) => some (JsonObj.cons k v2 t2, rest5)) =
          some (JsonObj.cons k v t, rest)
      rw [readVal_serVal v f _ (by omega) hv (serObjRest_notDigitHead t rest)]
      dsimp only
      rw [readObjRest_serObjRest t f rest (by omega) hs2 hr]
end

mutual
/-- The reader fuel bound: twice the serialization length dominates the
structural size. -/
theorem jsize_le : ∀ j : Json, jsize j ≤ 2 * (serVal j).length
  | .null => by simp [jsize, serVal]
  | .bool true => by simp [jsize, serVal]
  | .bool false => by simp [jsize, serVal]
  | .num n => by
      have h1 : 1 ≤ (serVal (Json.num n)).length := by
        show 1 ≤ (intDigits n).length
        unfold intDigits
        by_cases hn : n < 0
        · rw [if_pos hn]; simp
        · rw [if_neg hn]
          obtain ⟨d, ds, hds, _⟩ := natDigits_cons n.toNat
          rw [hds]; simp
      show 1 ≤ 2 * (serVal (Json.num n)).length
      omega
  | .str s => by
      show 1 ≤ 2 * ('"' :: (s.data ++ ['"'])).length
      simp
      omega
  | .arr a => by
      have h2 := asize_le_all a
      show asize a + 1 ≤ 2 * ('[' :: serArrAll a).length
      simp only [List.length_cons]
      omega
  | .obj o => by
      have h2 := osize_le_all o
      show osize o + 1 ≤ 2 * ('{' :: serObjAll o).length
      simp only [List.length_cons]
      omega

theorem asize_le_all : ∀ a : JsonArr, asize a ≤ 2 * (serArrAll a).length
  | .nil => by simp [asize, serArrAll]
  | .cons h t => by
      have h1 := jsize_le h
      have h2 := asize_le_rest t
      show jsize h + asize t + 1 ≤ 2 * (serVal h ++ serArrRest t).length
      simp only [List.length_append]
      omega

theorem asize_le_rest : ∀ a : JsonArr, asize a + 1 ≤ 2 * (serArrRest a).length
  | .nil => by simp [asize, serArrRest]
  | .cons h t => by
      have h1 := jsize_le h
      have h2 := asize_le_rest t
      show jsize h + asize t + 1 + 1 ≤ 2 * (',' :: (serVal h ++ serArrRest t)).length
      simp only [List.length_cons, List.length_append]
      omega

theorem osize_le_all : ∀ o : JsonObj, osize o ≤ 2 * (serObjAll o).length
  | .nil => by simp [osize, serObjAll]
  | .cons k v t => by
      have h1 := jsize_le v
      have h2 := osize_le_rest t
      show jsize v + osize t + 1 ≤ 2 * ('"' :: k.data ++ '"' :: ':' :: (serVal v ++ serObjRest t)).length
      simp only [List.length_cons, List.length_append]
      omega

theorem osize_le_rest : ∀ o : JsonObj, osize o + 1 ≤ 2 * (serObjRest o).length
  | .nil => by simp [osize, serObjRest]
  | .cons k v t => by
      have h1 := jsize_le v
      have h2 := osize_le_rest t
      show jsize v + osize t + 1 + 1 ≤ 2 * (',' :: '"' :: k.data ++ '"' :: ':' :: (serVal v ++ serObjRest t)).length
      simp only [List.length_cons, List.length_append]
      omega
end

/-- `json.loads` inverts `json.dumps` on serializable values. -/
theorem parseJsonChars_serVal (j : Json) (h : serializableVal j = true) :
    parseJsonChars (serVal j) = some j := by
  have hr := readVal_serVal j (2 * (serVal j).length + 2) []
    (by have := jsize_le j; omega) h trivial
  rw [List.append_nil] at hr
  unfold parseJsonChars
  rw [hr]
  rfl

theorem charIdx_append_none (c : Char) (xs ys : List Char)
    (h : ∀ x ∈ xs, ¬(x = c)) :
    charIdx c (xs ++ ys) = (charIdx c ys).map (· + xs.length) := by
  induction xs with
  | nil => simp
  | cons x xs ih =>
      rw [List.cons_append, charIdx, if_neg (h x (by simp)),
        ih (fun y hy => h y (by simp [hy]))]
      cases charIdx c ys with
      | none => rfl
      | some i => simp; omega

theorem charIdx_cons_self (c : Char) (rest : List Char) :
    charIdx c (c :: rest) = some 0 := by
  rw [charIdx, if_pos rfl]

/-- The brace-delimited extraction recovers the embedded serialization when
the leading wrapper holds no opening brace and the trailing wrapper no
closing brace. -/
theorem extract_wrapped (pre u post : List Char)
    (hpre : ∀ x ∈ pre, ¬(x = '{')) (hpost : ∀ x ∈ post, ¬(x = '}'))
    (hhead : ∃ b, u = '{' :: b) (hlast : ∃ xs, u = xs ++ ['}']) :
    extractJsonText (String.mk (pre ++ u ++ post)) = some u := by
  obtain ⟨b, hb⟩ := hhead
  obtain ⟨xs, hxs⟩ := hlast
  have hulen : 1 ≤ u.length := by rw [hb]; simp
  have hfind : pyFind '{' (pre ++ u ++ post) = some pre.length := by
    rw [pyFind, List.append_assoc, charIdx_append_none _ _ _ hpre, hb,
      List.cons_append, charIdx_cons_self]
    simp
  have hrfind : pyRFind '}' (pre ++ u ++ post) = some (pre.length + u.length - 1) := by
    have hrev : (pre ++ u ++ post).reverse = post.reverse ++ ('}' :: (xs.reverse ++ pre.reverse)) := by
      rw [hxs]
      simp
    have hidx : charIdx '}' ((pre ++ u ++ post).reverse) = some post.length := by
      rw [hrev, charIdx_append_none _ _ _ (fun x hx => by
          intro hxc
          exact hpost x (by simpa using hx) hxc),
        charIdx_cons_self]
      simp
    rw [pyRFind, hidx]
    have hlen : (pre ++ u ++ post).length = pre.length + u.length + post.length := by
      simp
      omega
    dsimp only
    congr 1
    omega
  show extractJsonText (String.mk (pre ++ u ++ post)) = some u
  unfold extractJsonText
  show (match pyFind '{' (pre ++ u ++ post), pyRFind '}' (pre ++ u ++ post) with
        | some i, some j => some (((pre ++ u ++ post).drop i).take (j + 1 - i))
        | _, _ => none) = some u
  rw [hfind, hrfind]
  dsimp only
  rw [List.append_assoc, List.drop_left]
  have htake : pre.length + u.length - 1 + 1 - pre.length = u.length := by omega
  rw [htake, List.take_left]

theorem mem_dropWhile_of_not {p : Char → Bool} {c : Char} :
    ∀ {l : List Char}, c ∈ l → p c = false → c ∈ l.dropWhile p
  | [], h, _ => by simp at h
  | x :: xs, h, hc => by
      by_cases hx : p x = true
      · rw [List.dropWhile_cons, if_pos hx]
        rcases List.mem_cons.mp h with rfl | hmem
        · rw [hx] at hc; cases hc
        · exact mem_dropWhile_of_not hmem hc
      · rw [List.dropWhile_cons, if_neg hx]
        exact h

/-- A string holding any non-whitespace character does not strip to empty,
so the validator does not take the `Empty response` branch. -/
theorem pyStrip_ne_empty {t : String} {c : Char} (hc : c ∈ t.data)
    (hw : isPyWs c = false) : ¬(pyStrip t = "") := by
  intro h
  have hl : (((t.data.dropWhile isPyWs).reverse.dropWhile isPyWs).reverse) = [] := by
    have := congrArg String.data h
    simpa [pyStrip] using this
  have h2 : (t.data.dropWhile isPyWs).reverse.dropWhile isPyWs = [] := by
    simpa using congrArg List.reverse hl
  have h3 : ∀ x ∈ (t.data.dropWhile isPyWs).reverse, isPyWs x := by
    rw [List.dropWhile_eq_nil_iff] at h2
    exact h2
  have h4 : c ∈ t.data.dropWhile isPyWs := mem_dropWhile_of_not hc hw
  have h5 := h3 c (by simpa using h4)
  rw [hw] at h5
  cases h5

theorem serObjRest_ends : ∀ o : JsonObj, ∃ xs, serObjRest o = xs ++ ['}']
  | .nil => ⟨[], rfl⟩
  | .cons k v t => by
      obtain ⟨xs, hxs⟩ := serObjRest_ends t
      refine ⟨',' :: '"' :: k.data ++ '"' :: ':' :: (serVal v ++ xs), ?_⟩
      show ',' :: '"' :: k.data ++ '"' :: ':' :: (serVal v ++ serObjRest t) = _
      rw [hxs]
      simp

theorem serObjAll_ends (o : JsonObj) : ∃ xs, serObjAll o = xs ++ ['}'] := by
  cases o with
  | nil => exact ⟨[], rfl⟩
  | cons k v t =>
      obtain ⟨xs, hxs⟩ := serObjRest_ends t
      refine ⟨'"' :: k.data ++ '"' :: ':' :: (serVal v ++ xs), ?_⟩
      show '"' :: k.data ++ '"' :: ':' :: (serVal v ++ serObjRest t) = _
      rw [hxs]
      simp

theorem serVal_obj_ends (o : JsonObj) : ∃ xs, serVal (Json.obj o) = xs ++ ['}'] := by
  obtain ⟨xs, hxs⟩ := serObjAll_ends o
  refine ⟨'{' :: xs, ?_⟩
  show '{' :: serObjAll o = _
  rw [hxs]
  simp

/-- The claim C4 precondition on the three declared numeric fields: each is
an actual JSON number within its declared range. -/
def numericFieldsOk (o : JsonObj) : Bool :=
  (match o.get "market_assessment" with
   | some (Json.obj m) =>
       match m.get "overall_score" with
       | some (Json.num n) => decide (0 ≤ n) && decide (n ≤ 100)
       | _ => false
   | _ => false) &&
  (match o.get "uniqueness_analysis" with
   | some (Json.obj u) =>
       match u.get "novelty_score" with
       | some (Json.num n) => decide (0 ≤ n) && decide (n ≤ 10)
       | _ => false
   | _ => false) &&
  (match o.get "analysis_metadata" with
   | some (Json.obj m) =>
       match m.get "confidence_score" with
       | some (Json.num n) => decide (0 ≤ n) && decide (n ≤ 1)
       | _ => false
   | _ => false)

/-- With genuine numeric score fields the quality check cannot raise: the
only crash paths are a non-object section reached by attribute access and
the string-to-float coercion, both excluded. -/
theorem quality_some_of_numericOk (o : JsonObj) (h : numericFieldsOk o = true) :
    ∃ i, validate_data_quality o = some i := by
  rw [numericFieldsOk] at h
  obtain ⟨h12, h3⟩ := Bool.and_eq_true_iff.mp h
  obtain ⟨h1, h2⟩ := Bool.and_eq_true_iff.mp h12
  have ho : (overallScoreIssues o).isSome := by
    rcases hm : o.get "market_assessment" with _ | j
    · simp [overallScoreIssues, hm]
    · rcases j with _ | b | n | s | a | m2
      · simp [hm] at h1
      · simp [hm] at h1
      · simp [hm] at h1
      · simp [hm] at h1
      · simp [hm] at h1
      · rcases hs : m2.get "overall_score" with _ | j2
        · simp [hm, hs] at h1
        · rcases j2 with _ | b | n | s | a | m3
          · simp [hm, hs] at h1
          · simp [hm, hs] at h1
          · simp [overallScoreIssues, hm, hs]
          · simp [hm, hs] at h1
          · simp [hm, hs] at h1
          · simp [hm, hs] at h1
  have hn : (noveltyScoreIssues o).isSome := by
    rcases hm : o.get "uniqueness_analysis" with _ | j
    · simp [noveltyScoreIssues, hm]
    · rcases j with _ | b | n | s | a | m2
      · simp [hm] at h2
      · simp [hm] at h2
      · simp [hm] at h2
      · simp [hm] at h2
      · simp [hm] at h2
      · rcases hs : m2.get "novelty_score" with _ | j2
        · simp [hm, hs] at h2
        · rcases j2 with _ | b | n | s | a | m3
          · simp [hm, hs] at h2
          · simp [hm, hs] at h2
          · simp [noveltyScoreIssues, hm, hs]
          · simp [hm, hs] at h2
          · simp [hm, hs] at h2
          · simp [hm, hs] at h2
  have hc : (confidenceScoreIssues o).isSome := by
    rcases hm : o.get "analysis_metadata" with _ | j
    · simp [confidenceScoreIssues, hm]
    · rcases j with _ | b | n | s | a | m2
      · simp [hm] at h3
      · simp [hm] at h3
      · simp [hm] at h3
      · simp [hm] at h3
      · simp [hm] at h3
      · rcases hs : m2.get "confidence_score" with _ | j2
        · simp [hm, hs] at h3
        · rcases j2 with _ | b | n | s | a | m3
          · simp [hm, hs] at h3
          · simp [hm, hs] at h3
          · simp [confidenceScoreIssues, hm, hs]
          · simp [hm, hs] at h3
          · simp [hm, hs] at h3
          · simp [hm, hs] at h3
  obtain ⟨i1, e1⟩ := Option.isSome_iff_exists.mp ho
  obtain ⟨i2, e2⟩ := Option.isSome_iff_exists.mp hn
  obtain ⟨i3, e3⟩ := Option.isSome_iff_exists.mp hc
  refine ⟨allFieldIssues o ++ i1 ++ i2 ++ i3, ?_⟩
  rw [validate_data_quality, e1]
  dsimp only
  rw [e2]
  dsimp only
  rw [e3]

/-- Main success path of the validator on a wrapped serialization: the text
strips nonempty, the brace extraction recovers the serialization, parsing
recovers the object, structure passes and quality does not crash. -/
theorem validate_ok_of_wrapped (o : JsonObj) (pre post : List Char)
    (hser : serializableObj o = true)
    (hstruct : validate_schema_structure o = none)
    (hnum : numericFieldsOk o = true)
    (hpre : ∀ x ∈ pre, ¬(x = '{')) (hpost : ∀ x ∈ post, ¬(x = '}')) :
    validate_comprehensive_analysis (String.mk (pre ++ serVal (Json.obj o) ++ post)) =
      (true, some (Json.obj o), none) := by
  obtain ⟨i, hq⟩ := quality_some_of_numericOk o hnum
  have hhead : ∃ b, serVal (Json.obj o) = '{' :: b := ⟨serObjAll o, rfl⟩
  have hext := extract_wrapped pre _ post hpre hpost hhead (serVal_obj_ends o)
  have hparse : parseJsonChars (serVal (Json.obj o)) = some (Json.obj o) :=
    parseJsonChars_serVal _ hser
  have hmem : '{' ∈ (String.mk (pre ++ serVal (Json.obj o) ++ post)).data := by
    show '{' ∈ pre ++ serVal (Json.obj o) ++ post
    have : '{' ∈ serVal (Json.obj o) := by
      show '{' ∈ '{' :: serObjAll o
      simp
    simp [List.mem_append, this]
  have hne := pyStrip_ne_empty hmem (by decide)
  unfold validate_comprehensive_analysis
  rw [if_neg hne, hext]
  dsimp only
  rw [hparse]
  dsimp only
  rw [hstruct]
  dsimp only
  rw [hq]

/-- The disjunction of all terminal failure causes, including the
quality-check crash the enumeration of the specification misses. -/
def anyFailureCause (t : String) : Prop :=
  condEmpty t = true ∨ condNoBraces t = true ∨ condParseFail t = true ∨
  condMissingSection t = true ∨ condMissingCritical t = true ∨
  condQualityCrash t = true

theorem parsedObjOf_none_of_extract {t : String}
    (hE : extractJsonText t = none) : parsedObjOf t = none := by
  unfold parsedObjOf
  rw [hE]

/-- C3 (amended).  `validate_comprehensive_analysis` never raises (it is a
total function) and returns `ok = false` exactly when the text is empty or
whitespace, no brace-delimited JSON structure exists, the extracted slice
fails to parse, a required section is absent or not an object, a declared
critical field is absent, or — the case the original claim misses — the
quality check crashes on a numeric field given as a digits-and-dots string
with two or more dots; on every other input it returns `ok = true` with the
parsed object. -/
theorem validator_failure_characterisation (t : String) :
    ((validate_comprehensive_analysis t).1 = false ↔ anyFailureCause t) ∧
    ((validate_comprehensive_analysis t).1 = false ∨
      validate_comprehensive_analysis t = (true, (parsedObjOf t).map Json.obj, none)) := by
  by_cases h1 : pyStrip t = ""
  · have hv : validate_comprehensive_analysis t =
        (false, none, some "Empty response from LLM") := by
      unfold validate_comprehensive_analysis
      rw [if_pos h1]
    refine ⟨⟨fun _ => Or.inl ?_, fun _ => by rw [hv]⟩, Or.inl (by rw [hv])⟩
    simp [condEmpty, h1]
  · have hce : condEmpty t = false := by simp [condEmpty, h1]
    rcases hE : extractJsonText t with _ | sub
    · have hv : validate_comprehensive_analysis t =
          (false, none, some "No JSON structure found in response") := by
        unfold validate_comprehensive_analysis
        rw [if_neg h1, hE]
      refine ⟨⟨fun _ => Or.inr (Or.inl ?_), fun _ => by rw [hv]⟩, Or.inl (by rw [hv])⟩
      simp [condNoBraces, condEmpty, h1, hE]
    · rcases hP : parseJsonChars sub with _ | j
      · have hv : validate_comprehensive_analysis t =
            (false, none, some "JSON parsing failed") := by
          unfold validate_comprehensive_analysis
          rw [if_neg h1, hE]
          dsimp only
          rw [hP]
        have hpo : parsedObjOf t = none := by
          unfold parsedObjOf
          rw [hE]
          dsimp only
          rw [hP]
        refine ⟨⟨fun _ => Or.inr (Or.inr (Or.inl ?_)), fun _ => by rw [hv]⟩,
          Or.inl (by rw [hv])⟩
        simp [condParseFail, condEmpty, h1, hE, hpo]
      · have hobjcase : (∃ o, j = Json.obj o) ∨ (parsedObjOf t = none ∧
            validate_comprehensive_analysis t = (false, none, some "JSON parsing failed")) := by
          rcases j with _ | b | n | s | a | o
          · refine Or.inr ⟨?_, ?_⟩
            · unfold parsedObjOf; rw [hE]; dsimp only; rw [hP]
            · unfold validate_comprehensive_analysis
              rw [if_neg h1, hE]
              dsimp only
              rw [hP]
          · refine Or.inr ⟨?_, ?_⟩
            · unfold parsedObjOf; rw [hE]; dsimp only; rw [hP]
            · unfold validate_comprehensive_analysis
              rw [if_neg h1, hE]
              dsimp only
              rw [hP]
          · refine Or.inr ⟨?_, ?_⟩
            · unfold parsedObjOf; rw [hE]; dsimp only; rw [hP]
            · unfold validate_comprehensive_analysis
              rw [if_neg h1, hE]
              dsimp only
              rw [hP]
          · refine Or.inr ⟨?_, ?_⟩
            · unfold parsedObjOf; rw [hE]; dsimp only; rw [hP]
            · unfold validate_comprehensive_analysis
              rw [if_neg h1, hE]
              dsimp only
              rw [hP]
          · refine Or.inr ⟨?_, ?_⟩
            · unfold parsedObjOf; rw [hE]; dsimp only; rw [hP]
            · unfold validate_comprehensive_analysis
              rw [if_neg h1, hE]
              dsimp only
              rw [hP]
          · exact Or.inl ⟨o, rfl⟩
        rcases hobjcase with ⟨o, rfl⟩ | ⟨hpo, hv⟩
        · have hpo : parsedObjOf t = some o := by
            unfold parsedObjOf
            rw [hE]
            dsimp only
            rw [hP]
          rcases hS : checkSections required_sections o with _ | e
          · rcases hC : checkCritical critical_fields o with _ | e
            · have hvs : validate_schema_structure o = none := by
                unfold validate_schema_structure
                rw [hS]
                dsimp only
                rw [hC]
              rcases hQ : validate_data_quality o with _ | issues
              · have hv : validate_comprehensive_analysis t =
                    (false, none,
                     some "Validation error: could not convert string to float") := by
                  unfold validate_comprehensive_analysis
                  rw [if_neg h1, hE]
                  dsimp only
                  rw [hP]
                  dsimp only
                  rw [hvs]
                  dsimp only
                  rw [hQ]
                refine ⟨⟨fun _ => Or.inr (Or.inr (Or.inr (Or.inr (Or.inr ?_)))),
                  fun _ => by rw [hv]⟩, Or.inl (by rw [hv])⟩
                simp [condQualityCrash, hpo, hvs, hQ]
              · have hv : validate_comprehensive_analysis t =
                    (true, some (Json.obj o), none) := by
                  unfold validate_comprehensive_analysis
                  rw [if_neg h1, hE]
                  dsimp only
                  rw [hP]
                  dsimp only
                  rw [hvs]
                  dsimp only
                  rw [hQ]
                constructor
                · constructor
                  · intro hfalse
                    rw [hv] at hfalse
                    cases hfalse
                  · intro hdisj
                    rcases hdisj with hc | hc | hc | hc | hc | hc
                    · rw [hce] at hc; cases hc
                    · have : condNoBraces t = false := by
                        simp [condNoBraces, hE]
                      rw [this] at hc; cases hc
                    · have : condParseFail t = false := by
                        simp [condParseFail, hpo]
                      rw [this] at hc; cases hc
                    · have : condMissingSection t = false := by
                        simp [condMissingSection, hpo, hS]
                      rw [this] at hc; cases hc
                    · have : condMissingCritical t = false := by
                        simp [condMissingCritical, hpo, hC]
                      rw [this] at hc; cases hc
                    · have : condQualityCrash t = false := by
                        simp [condQualityCrash, hpo, hvs, hQ]
                      rw [this] at hc; cases hc
                · right
                  rw [hv, hpo]
                  rfl
            · have hvs : validate_schema_structure o = some e := by
                unfold validate_schema_structure
                rw [hS]
                dsimp only
                rw [hC]
              have hv : validate_comprehensive_analysis t =
                  (false, none, some ("Schema validation failed: " ++ e)) := by
                unfold validate_comprehensive_analysis
                rw [if_neg h1, hE]
                dsimp only
                rw [hP]
                dsimp only
                rw [hvs]
              refine ⟨⟨fun _ => Or.inr (Or.inr (Or.inr (Or.inr (Or.inl ?_)))),
                fun _ => by rw [hv]⟩, Or.inl (by rw [hv])⟩
              simp [condMissingCritical, hpo, hS, hC]
          · have hvs : validate_schema_structure o = some e := by
              unfold validate_schema_structure
              rw [hS]
            have hv : validate_comprehensive_analysis t =
                (false, none, some ("Schema validation failed: " ++ e)) := by
              unfold validate_comprehensive_analysis
              rw [if_neg h1, hE]
              dsimp only
              rw [hP]
              dsimp only
              rw [hvs]
            refine ⟨⟨fun _ => Or.inr (Or.inr (Or.inr (Or.inl ?_))),
              fun _ => by rw [hv]⟩, Or.inl (by rw [hv])⟩
            simp [condMissingSection, hpo, hS]
        · refine ⟨⟨fun _ => Or.inr (Or.inr (Or.inl ?_)), fun _ => by rw [hv]⟩,
            Or.inl (by rw [hv])⟩
          simp [condParseFail, condEmpty, h1, hE, hpo]

theorem charIdx_mem {c : Char} : ∀ {cs : List Char} {i : Nat},
    charIdx c cs = some i → c ∈ cs
  | [], _, h => by cases h
  | d :: rest, i, h => by
      rw [charIdx] at h
      by_cases hd : d = c
      · rw [hd]; simp
      · rw [if_neg hd] at h
        rcases hr : charIdx c rest with _ | k
        · rw [hr] at h; cases h
        · exact List.mem_cons_of_mem d (charIdx_mem hr)

/-- A text whose brace extraction parses to a structurally valid object on
which the quality check returns (rather than crashes) is accepted with that
object. -/
theorem validate_ok_of_parsed (t : String) (o : JsonObj) (issues : List String)
    (hpo : parsedObjOf t = some o)
    (hs : validate_schema_structure o = none)
    (hq : validate_data_quality o = some issues) :
    validate_comprehensive_analysis t = (true, some (Json.obj o), none) := by
  rcases hE : extractJsonText t with _ | sub
  · rw [parsedObjOf_none_of_extract hE] at hpo
    cases hpo
  · have hF : ∃ i, pyFind '{' t.data = some i := by
      rcases hF2 : pyFind '{' t.data with _ | i
      · unfold extractJsonText at hE
        rw [show (pyFind '{' t.data) = none from hF2] at hE
        cases hE
      · exact ⟨i, rfl⟩
    obtain ⟨i, hFi⟩ := hF
    have hmem : '{' ∈ t.data := charIdx_mem hFi
    have hne : ¬(pyStrip t = "") := pyStrip_ne_empty hmem (by decide)
    rcases hP : parseJsonChars sub with _ | j
    · have : parsedObjOf t = none := by
        unfold parsedObjOf
        rw [hE]
        dsimp only
        rw [hP]
      rw [this] at hpo
      cases hpo
    · rcases j with _ | b | n | s | a | o2
      · rw [show parsedObjOf t = none by
          unfold parsedObjOf; rw [hE]; dsimp only; rw [hP]] at hpo
        cases hpo
      · rw [show parsedObjOf t = none by
          unfold parsedObjOf; rw [hE]; dsimp only; rw [hP]] at hpo
        cases hpo
      · rw [show parsedObjOf t = none by
          unfold parsedObjOf; rw [hE]; dsimp only; rw [hP]] at hpo
        cases hpo
      · rw [show parsedObjOf t = none by
          unfold parsedObjOf; rw [hE]; dsimp only; rw [hP]] at hpo
        cases hpo
      · rw [show parsedObjOf t = none by
          unfold parsedObjOf; rw [hE]; dsimp only; rw [hP]] at hpo
        cases hpo
      · have ho : o2 = o := by
          rw [show parsedObjOf t = some o2 by
            unfold parsedObjOf; rw [hE]; dsimp only; rw [hP]] at hpo
          exact (Option.some.injEq _ _).mp hpo
        subst ho
        unfold validate_comprehensive_analysis
        rw [if_neg hne, hE]
        dsimp only
        rw [hP]
        dsimp only
        rw [hs]
        dsimp only
        rw [hq]

/-! ### Claim theorems for the output validator -/

/-- C3 counterexample: on a complete, well-structured analysis whose
novelty score is the string `1.2.3`, the validator returns `ok = false`
(with a `Validation error:` message) although none of the five enumerated
failure causes holds, so the claim's `exactly when` is false as stated. -/
theorem validator_crash_counterexample :
    validate_comprehensive_analysis (serialize crashAnalysis) =
      (false, none, some "Validation error: could not convert string to float") ∧
    condEmpty (serialize crashAnalysis) = false ∧
    condNoBraces (serialize crashAnalysis) = false ∧
    condParseFail (serialize crashAnalysis) = false ∧
    condMissingSection (serialize crashAnalysis) = false ∧
    condMissingCritical (serialize crashAnalysis) = false := by
  refine ⟨by decide, by decide, by decide, by decide, by decide, by decide⟩

/-- C4: round trip.  A JSON object carrying the eight required sections
with their critical fields and in-range numeric score fields validates to
`ok = true` with a parsed object equal to the input, both from its bare
serialization and from the serialization wrapped in any brace-free prefix
(such as a markdown fence) and any suffix free of closing braces (such as a
fence plus trailing prose). -/
theorem validator_roundtrip (o : JsonObj) (pre post : List Char)
    (hser : serializableObj o = true)
    (hstruct : validate_schema_structure o = none)
    (hnum : numericFieldsOk o = true)
    (hpre : pre.all (fun c => !(c = '{')) = true)
    (hpost : post.all (fun c => !(c = '}')) = true) :
    validate_comprehensive_analysis (serialize (Json.obj o)) =
      (true, some (Json.obj o), none) ∧
    validate_comprehensive_analysis (String.mk (pre ++ serVal (Json.obj o) ++ post)) =
      (true, some (Json.obj o), none) := by
  have hpre2 : ∀ x ∈ pre, ¬(x = '{') := fun x hx => by
    simpa using List.all_eq_true.mp hpre x hx
  have hpost2 : ∀ x ∈ post, ¬(x = '}') := fun x hx => by
    simpa using List.all_eq_true.mp hpost x hx
  constructor
  · have h := validate_ok_of_wrapped o [] [] hser hstruct hnum (by simp) (by simp)
    simpa [serialize] using h
  · exact validate_ok_of_wrapped o pre post hser hstruct hnum hpre2 hpost2

/-- C4 witness: the concrete valid analysis, bare and wrapped in markdown
fences with trailing prose. -/
theorem validator_roundtrip_witness :
    serializableObj (mkAnalysisObj (.num 72) (.num 7) (.num 1)) = true ∧
    validate_schema_structure (mkAnalysisObj (.num 72) (.num 7) (.num 1)) = none ∧
    numericFieldsOk (mkAnalysisObj (.num 72) (.num 7) (.num 1)) = true ∧
    validate_comprehensive_analysis
      (serialize (Json.obj (mkAnalysisObj (.num 72) (.num 7) (.num 1)))) =
      (true, some (Json.obj (mkAnalysisObj (.num 72) (.num 7) (.num 1))), none) ∧
    validate_comprehensive_analysis
      (String.mk (("```json\n").data ++
        serVal (Json.obj (mkAnalysisObj (.num 72) (.num 7) (.num 1))) ++
        ("\n```\nThanks!").data)) =
      (true, some (Json.obj (mkAnalysisObj (.num 72) (.num 7) (.num 1))), none) :=
  ⟨by decide, by decide, by decide,
   (validator_roundtrip (mkAnalysisObj (.num 72) (.num 7) (.num 1))
     ("```json\n").data ("\n```\nThanks!").data
     (by decide) (by decide) (by decide) (by decide) (by decide)).1,
   (validator_roundtrip (mkAnalysisObj (.num 72) (.num 7) (.num 1))
     ("```json\n").data ("\n```\nThanks!").data
     (by decide) (by decide) (by decide) (by decide) (by decide)).2⟩

/-- C5: quality findings are advisory.  Whenever the extracted JSON passes
the structural check and the quality scan returns an issue list, the
validator reports `ok = true`; in particular the instructional-text score is
flagged as copied example text and the out-of-range score 150 produces a
range diagnostic, with `ok = true` in both cases. -/
theorem quality_advisory_not_terminal (t : String) (o : JsonObj)
    (issues : List String)
    (hpo : parsedObjOf t = some o)
    (hs : validate_schema_structure o = none)
    (hq : validate_data_quality o = some issues) :
    (validate_comprehensive_analysis t).1 = true ∧
    (validate_comprehensive_analysis (serialize copiedAnalysis)).1 = true ∧
    (parsedObjOf (serialize copiedAnalysis)).map validate_data_quality =
      some (some ["market_assessment.overall_score: Contains copied example text instead of actual score"]) ∧
    (validate_comprehensive_analysis (serialize rangeAnalysis)).1 = true ∧
    (parsedObjOf (serialize rangeAnalysis)).map validate_data_quality =
      some (some ["market_assessment.overall_score: Score out of range (0-100)"]) := by
  refine ⟨?_, by decide, by decide, by decide, by decide⟩
  rw [validate_ok_of_parsed t o issues hpo hs hq]

/-- C5 witness: the advisory guarantee applied to the copied-example
payload. -/
theorem quality_advisory_not_terminal_witness :
    (validate_comprehensive_analysis (serialize copiedAnalysis)).1 = true :=
  (quality_advisory_not_terminal (serialize copiedAnalysis)
    (mkAnalysisObj (.str "A calculated score from 0-100, where higher is better") (.num 7) (.num 1))
    ["market_assessment.overall_score: Contains copied example text instead of actual score"]
    (by decide) (by decide) (by decide)).1

/-! ### Typed schema (`app/models/schemas.py`)

Pydantic models become Lean structures; `float` fields become rationals,
`int` fields integers, `datetime` fields strings. -/

structure AnalysisMetadata where
  confidence_score : ℚ
  analysis_depth : String
  data_sources_used : List String
  analysis_timestamp : String
deriving DecidableEq

structure MarketAssessment where
  overall_score : Int
  verdict : String
  market_saturation : String
  entry_barriers : String
  market_timing : String
deriving DecidableEq

structure CompetitorAnalysis where
  name : String
  strengths : List String
  weaknesses : List String
  market_position : String
  customer_pain_points : List String
  differentiation_gaps : List String
deriving DecidableEq

structure CompetitiveLandscape where
  existing_solutions : List CompetitorAnalysis
  market_gaps : List String
  competitive_advantages : List String
  market_saturation_level : String
deriving DecidableEq

structure UniquenessAnalysis where
  novelty_score : ℚ
  differentiation_factors : List String
  copycat_risk : String
  innovation_level : String
  unique_value_proposition : String
deriving DecidableEq

structure BusinessViability where
  customer_value_proposition : String
  target_market_size : String
  monetization_potential : String
  pricing_strategy : String
  customer_acquisition_cost : String
  unit_economics : String
deriving DecidableEq

structure RiskAssessment where
  market_risks : List String
  execution_risks : List String
  competitive_risks : List String
  mitigation_strategies : List String
  risk_level : String
deriving DecidableEq

structure ValueEnhancementRoadmap where
  current_gaps : List String
  differentiation_opportunities : List String
  feature_prioritization : List String
  market_positioning : List String
  competitive_response_strategy : List String
deriving DecidableEq

structure StrategicRecommendations where
  market_entry_strategy : String
  pivot_suggestions : List String
  success_factors : List String
  next_steps : List String
  timeline_recommendations : String
deriving DecidableEq

structure ComprehensiveAnalysis where
  analysis_metadata : AnalysisMetadata
  market_assessment : MarketAssessment
  competitive_landscape : CompetitiveLandscape
  uniqueness_analysis : UniquenessAnalysis
  business_viability : BusinessViability
  risk_assessment : RiskAssessment
  value_enhancement_roadmap : ValueEnhancementRoadmap
  strategic_recommendations : StrategicRecommendations
deriving DecidableEq

/-- `ValidationResult` as declared in `schemas.py`: the `analysis` field is
required and non-optional. -/
structure ValidationResult where
  idea : String
  analysis : ComprehensiveAnalysis
  raw_data : List (String × Json)
  timestamp : String
  api_status : List (String × Bool)
  execution_time : Nat
  error : Option String
deriving DecidableEq

/-- The pydantic constructor call `ValidationResult(...)`: passing `None`
for the required `analysis` field raises a `ValidationError`, modelled as
the `Except.error` case. -/
def mkValidationResult (idea : String) (analysis : Option ComprehensiveAnalysis)
    (raw_data : List (String × Json)) (timestamp : String)
    (api_status : List (String × Bool)) (execution_time : Nat)
    (error : Option String) : Except String ValidationResult :=
  match analysis with
  | none =>
      .error "1 validation error for ValidationResult: analysis none is not an allowed value"
  | some a => .ok ⟨idea, a, raw_data, timestamp, api_status, execution_time, error⟩

/-! ### `ValidationService` (`app/services/validation_service.py`) -/

/-- `ValidationService._create_error_analysis`: the deterministic
placeholder substituted on failure.  The `idea` and `error_message`
arguments are accepted exactly as in the source; the current time is passed
in explicitly. -/
def create_error_analysis (idea : String) (error_message : String)
    (now : String) : ComprehensiveAnalysis :=
  { analysis_metadata :=
      { confidence_score := 0
        analysis_depth := "error"
        data_sources_used := ["error"]
        analysis_timestamp := now }
    market_assessment :=
      { overall_score := 0
        verdict := "Analysis Failed"
        market_saturation := "Unknown"
        entry_barriers := "Unknown"
        market_timing := "Unknown" }
    competitive_landscape :=
      { existing_solutions := []
        market_gaps := ["Analysis failed - unable to identify gaps"]
        competitive_advantages := ["Analysis failed - unable to identify advantages"]
        market_saturation_level := "Analysis failed - unable to assess market saturation" }
    uniqueness_analysis :=
      { novelty_score := 0
        differentiation_factors := ["Analysis failed"]
        copycat_risk := "Unknown"
        innovation_level := "Unknown"
        unique_value_proposition := "Analysis failed - unable to assess uniqueness" }
    business_viability :=
      { customer_value_proposition := "Analysis failed"
        target_market_size := "Unknown"
        monetization_potential := "Unknown"
        pricing_strategy := "Analysis failed"
        customer_acquisition_cost := "Unknown"
        unit_economics := "Analysis failed" }
    risk_assessment :=
      { market_risks := ["Analysis failed - unable to assess risks"]
        execution_risks := ["Analysis failed - unable to assess execution risks"]
        competitive_risks := ["Analysis failed - unable to assess competitive risks"]
        mitigation_strategies := ["Retry the analysis or contact support"]
        risk_level := "Unknown" }
    value_enhancement_roadmap :=
      { current_gaps := ["Analysis failed"]
        differentiation_opportunities := ["Analysis failed"]
        feature_prioritization := ["Analysis failed"]
        market_positioning := ["Analysis failed"]
        competitive_response_strategy := ["Analysis failed"] }
    strategic_recommendations :=
      { market_entry_strategy := "Analysis failed - unable to provide recommendations"
        pivot_suggestions := ["Retry the analysis"]
        success_factors := ["Analysis failed"]
        next_steps := ["Retry the analysis or contact support"]
        timeline_recommendations := "Analysis failed" } }

/-- The environment `validate_startup_idea` runs in: the availability flags
observed at construction, the three source adapters as total functions
returning payload dictionaries (they catch their own exceptions and return
error payloads), the LLM analysis call
(`GeminiService.analyze_startup_idea_comprehensive`, `none` meaning no
usable response) and the pydantic coercion
`ComprehensiveAnalysis(**analysis_data)` (`Except.error` carrying the
validation error message it raises with). -/
structure Behaviors where
  geminiAvailable : Bool
  tavilyAvailable : Bool
  trendsAvailable : Bool
  redditAvailable : Bool
  trends : String → Json
  tavily : String → Json
  reddit : String → Json
  analyze : String → Json → Json → Json → Option Json
  coerce : Json → Except String ComprehensiveAnalysis

/-- `ValidationService._check_services_status`. -/
def services_status (B : Behaviors) : List (String × Bool) :=
  [("gemini", B.geminiAvailable), ("tavily", B.tavilyAvailable),
   ("google_trends", B.trendsAvailable), ("reddit", B.redditAvailable)]

/-- The error payload stored in the competitors slot when the competitor
stage is disabled or the service unavailable. -/
def competitorsDisabledPayload : Json :=
  Json.obj (.cons "error" (.str "Service unavailable or disabled") .nil)

/-- The error payload stored in the reddit slot when the service is
unavailable. -/
def redditUnconfiguredPayload : Json :=
  Json.obj (.cons "error"
    (.str "Reddit service is not configured. Please provide API credentials.") .nil)

/-- Python `raw_data.get(key, \x7b\x7d)`. -/
def rawGet (raw : List (String × Json)) (k : String) : Json :=
  match raw.find? (fun p => p.1 = k) with
  | some p => p.2
  | none => Json.obj .nil

/-- Python `raw_data.get(key)` as an optional lookup, for stating which
slots are populated. -/
def rawFind (raw : List (String × Json)) (k : String) : Option Json :=
  (raw.find? (fun p => p.1 = k)).map (fun p => p.2)

/-- `ValidationService.validate_startup_idea`.  Stateful details are passed
explicitly: `now` models `datetime.utcnow()`, `dur` the measured execution
time.  The body's `try` block cannot raise in this model because every
modelled operation returns instead of raising, so the outer `except` branch
(which would return a result with the error text set) is unreachable; the
short-input branch constructs `ValidationResult` with `analysis=None`,
which the pydantic constructor rejects. -/
def validate_startup_idea (B : Behaviors) (now : String) (dur : Nat)
    (idea : String) (include_reddit include_trends include_competitors : Bool) :
    Except String ValidationResult :=
  if idea = "" ∨ (pyStrip idea).length < 10 then
    mkValidationResult idea none [] now (services_status B) 0
      (some "Input idea is too short or empty. Please provide a more detailed description.")
  else
    let raw1 : List (String × Json) :=
      if include_trends then [("trends", B.trends idea)] else []
    let raw2 := raw1 ++
      [("competitors",
        if include_competitors && B.tavilyAvailable then B.tavily idea
        else competitorsDisabledPayload)]
    let raw3 := raw2 ++
      (if include_reddit && B.redditAvailable then [("reddit", B.reddit idea)]
       else if include_reddit then [("reddit", redditUnconfiguredPayload)]
       else [])
    let analysis : ComprehensiveAnalysis :=
      if B.geminiAvailable then
        match B.analyze idea (rawGet raw3 "trends") (rawGet raw3 "competitors")
            (rawGet raw3 "reddit") with
        | some d =>
            match B.coerce d with
            | .ok a => a
            | .error e => create_error_analysis idea e now
        | none =>
            create_error_analysis idea "LLM analysis failed - no response received" now
      else create_error_analysis idea "Gemini service unavailable" now
    mkValidationResult idea (some analysis) raw3 now (services_status B) dur none

/-- Python truthiness of a JSON value, for `result.get("error")` checks. -/
def jTruthy (j : Json) : Bool :=
  match j with
  | .null => false
  | .bool b => b
  | .num n => !(n = 0)
  | .str s => !(s = "")
  | .arr .nil => false
  | .arr _ => true
  | .obj .nil => false
  | .obj _ => true

/-- Whether an adapter payload reports an error (a truthy `error` key). -/
def reportsError (j : Json) : Bool :=
  match j with
  | .obj o =>
      match o.get "error" with
      | some v => jTruthy v
      | none => false
  | _ => false

/-- An adapter error payload. -/
def errPayload (msg : String) : Json :=
  Json.obj (.cons "error" (.str msg) .nil)

/-- A fully degraded environment: every service down, every adapter
reporting an error, the LLM yielding nothing. -/
def downBehaviors : Behaviors where
  geminiAvailable := false
  tavilyAvailable := false
  trendsAvailable := false
  redditAvailable := false
  trends := fun _ => errPayload "Google Trends failed: connection error"
  tavily := fun _ => errPayload "Tavily service not available"
  reddit := fun _ => errPayload "Reddit service not available"
  analyze := fun _ _ _ _ => none
  coerce := fun _ => .error "validation error"

/-- The analysis the workflow always computes in its LLM stage (step 4),
spelled with the raw-data slots each adapter stage populated. -/
def llmStageAnalysis (B : Behaviors) (now : String) (idea : String)
    (include_reddit include_trends include_competitors : Bool) :
    ComprehensiveAnalysis :=
  if B.geminiAvailable then
    match B.analyze idea
        (if include_trends then B.trends idea else Json.obj .nil)
        (if include_competitors && B.tavilyAvailable then B.tavily idea
         else competitorsDisabledPayload)
        (if include_reddit then
           (if B.redditAvailable then B.reddit idea else redditUnconfiguredPayload)
         else Json.obj .nil) with
    | some d =>
        match B.coerce d with
        | .ok a => a
        | .error e => create_error_analysis idea e now
    | none =>
        create_error_analysis idea "LLM analysis failed - no response received" now
  else create_error_analysis idea "Gemini service unavailable" now

/-! ### Claim theorems for the orchestrator -/

/-- C1 (the code violates the claimed invariant): for a too-short idea the
source constructs `ValidationResult(analysis=None, ...)` although the
schema declares `analysis` as a required non-optional field, so the
pydantic constructor raises and no envelope with a placeholder analysis is
returned; the exception escapes `validate_startup_idea` because the branch
sits before the `try` block. -/
theorem short_idea_constructor_raises :
    validate_startup_idea downBehaviors "2026-01-01T00:00:00" 0 "app" true true true =
      .error "1 validation error for ValidationResult: analysis none is not an allowed value" ∧
    ("app" = "" ∨ (pyStrip "app").length < 10) :=
  ⟨rfl, by decide⟩

/-- C2 counterexample: with every adapter erroring and the LLM gateway
unavailable, the returned envelope's top-level `error` field is `None`, not
a non-empty string — the gemini-unavailable branch never sets it. -/
theorem gemini_down_error_none_counterexample :
    (validate_startup_idea downBehaviors "2026-01-01T00:00:00" 3
        "a carbon footprint tracking app" true true true).map
      (fun r => (r.error, r.analysis.market_assessment.verdict)) =
    .ok (none, "Analysis Failed") := by
  rfl

/-- C2 (amended): if every source adapter reports an error and the LLM
gateway is unavailable, the workflow still returns an envelope (no
exception) whose `analysis.market_assessment.verdict` is the fixed failure
marker, but its top-level `error` field is `None` — the error field stays
unset on this path. -/
theorem gemini_down_failure_envelope (B : Behaviors) (now : String) (dur : Nat)
    (idea : String)
    (hidea : ¬(idea = "" ∨ (pyStrip idea).length < 10))
    (hg : B.geminiAvailable = false)
    (htr : reportsError (B.trends idea) = true)
    (hta : B.tavilyAvailable = false ∨ reportsError (B.tavily idea) = true)
    (hre : B.redditAvailable = false ∨ reportsError (B.reddit idea) = true) :
    (validate_startup_idea B now dur idea true true true).map
      (fun r => (r.error, r.analysis.market_assessment.verdict)) =
    .ok (none, "Analysis Failed") := by
  unfold validate_startup_idea
  rw [if_neg hidea, hg]
  rfl

/-- C2 witness: the degraded environment at a concrete idea. -/
theorem gemini_down_failure_envelope_witness :
    (validate_startup_idea downBehaviors "2026-01-01T00:00:00" 3
        "a carbon footprint tracking app" true true true).map
      (fun r => (r.error, r.analysis.market_assessment.verdict)) =
    .ok (none, "Analysis Failed") :=
  gemini_down_failure_envelope downBehaviors "2026-01-01T00:00:00" 3
    "a carbon footprint tracking app" (by decide) rfl (by decide)
    (Or.inl rfl) (Or.inl rfl)

/-- C7: the three data-collection stages are individually optional via
their include flags; a disabled or failed stage leaves its error payload
(or omits the slot) in `raw_data`, the remaining stages still run, and the
LLM stage is always reached with the collected slots — the workflow returns
an envelope for every adapter behaviour, so no data-collection failure
halts the pipeline. -/
theorem stage_isolation (B : Behaviors) (now : String) (dur : Nat)
    (idea : String) (include_reddit include_trends include_competitors : Bool)
    (hidea : ¬(idea = "" ∨ (pyStrip idea).length < 10)) :
    (validate_startup_idea B now dur idea
        include_reddit include_trends include_competitors).map
      (fun r => rawFind r.raw_data "trends") =
      .ok (if include_trends then some (B.trends idea) else none) ∧
    (validate_startup_idea B now dur idea
        include_reddit include_trends include_competitors).map
      (fun r => rawFind r.raw_data "competitors") =
      .ok (some (if include_competitors && B.tavilyAvailable then B.tavily idea
                 else competitorsDisabledPayload)) ∧
    (validate_startup_idea B now dur idea
        include_reddit include_trends include_competitors).map
      (fun r => rawFind r.raw_data "reddit") =
      .ok (if include_reddit then
             some (if B.redditAvailable then B.reddit idea
                   else redditUnconfiguredPayload)
           else none) ∧
    (validate_startup_idea B now dur idea
        include_reddit include_trends include_competitors).map
      (fun r => r.analysis) =
      .ok (llmStageAnalysis B now idea
        include_reddit include_trends include_competitors) := by
  unfold validate_startup_idea llmStageAnalysis
  rw [if_neg hidea]
  cases include_trends <;> cases include_competitors <;> cases include_reddit <;>
    cases htav : B.tavilyAvailable <;> cases hred : B.redditAvailable <;>
      exact ⟨rfl, rfl, rfl, rfl⟩

/-- C7 witness: the degraded environment with all stages enabled at a
concrete idea. -/
theorem stage_isolation_witness :
    (validate_startup_idea downBehaviors "2026-01-01T00:00:00" 3
        "a carbon footprint tracking app" true true true).map
      (fun r => rawFind r.raw_data "trends") =
    .ok (some (downBehaviors.trends "a carbon footprint tracking app")) := by
  have h := (stage_isolation downBehaviors "2026-01-01T00:00:00" 3
    "a carbon footprint tracking app" true true true (by decide)).1
  simpa using h

/-- C10: the substituted error analysis is constant up to the timestamp —
neither the idea nor the error message influences any field — and its
numeric fields sit at the bottom of their declared ranges. -/
theorem error_analysis_constant (idea1 msg1 idea2 msg2 now : String) :
    create_error_analysis idea1 msg1 now = create_error_analysis idea2 msg2 now ∧
    (create_error_analysis idea1 msg1 now).analysis_metadata.confidence_score = 0 ∧
    0 ≤ (create_error_analysis idea1 msg1 now).analysis_metadata.confidence_score ∧
    (create_error_analysis idea1 msg1 now).analysis_metadata.confidence_score ≤ 1 ∧
    (create_error_analysis idea1 msg1 now).market_assessment.overall_score = 0 ∧
    0 ≤ (create_error_analysis idea1 msg1 now).market_assessment.overall_score ∧
    (create_error_analysis idea1 msg1 now).market_assessment.overall_score ≤ 100 ∧
    (create_error_analysis idea1 msg1 now).uniqueness_analysis.novelty_score = 0 ∧
    0 ≤ (create_error_analysis idea1 msg1 now).uniqueness_analysis.novelty_score ∧
    (create_error_analysis idea1 msg1 now).uniqueness_analysis.novelty_score ≤ 10 ∧
    (create_error_analysis idea1 msg1 now).market_assessment.verdict = "Analysis Failed" :=
  ⟨rfl, rfl, le_refl 0, by show (0 : ℚ) ≤ 1; norm_num, rfl, le_refl 0,
   by show (0 : Int) ≤ 100; norm_num, rfl, le_refl 0,
   by show (0 : ℚ) ≤ 10; norm_num, rfl⟩

/-! ### `GeminiService.generate_content` (`app/services/gemini_service.py`)

The provider is a trace of per-attempt outcomes; the `tenacity` retry
decorator retries only when the wrapped body raises, and after
`stop_after_attempt` failed attempts it raises `RetryError` (modelled as
`Except.error`). -/

/-- One outcome of the underlying `flash_model.generate_content` call. -/
inductive ProviderOutcome where
  | raises : ProviderOutcome
  | text (s : String) : ProviderOutcome

/-- One execution of the `generate_content` body: the availability check
returns `None`; the `try` block turns any provider exception into `None`
and an empty response body into `None`.  The body itself never raises, so
it always returns `Except.ok`. -/
def generate_content_once (available : Bool) (outcome : ProviderOutcome) :
    Except Unit (Option String) :=
  if !available then .ok none
  else
    match outcome with
    | .raises => .ok none
    | .text s => .ok (if s = "" then none else some s)

/-- The `tenacity` retry loop: run the body on successive attempts, retry
only when it raises, and raise `RetryError` once the attempt budget is
spent.  Returns the outcome together with the number of attempts used. -/
def tenacityGo (run : ProviderOutcome → Except Unit (Option String))
    (provider : Nat → ProviderOutcome) :
    Nat → Nat → Except Unit (Option String) × Nat
  | idx, 0 => (.error (), idx)
  | idx, remaining + 1 =>
      match run (provider idx) with
      | .ok v => (.ok v, idx + 1)
      | .error _ => tenacityGo run provider (idx + 1) remaining

/-- The decorated `GeminiService.generate_content`: the retry policy wraps
the body with `stop_after_attempt(3)`. -/
def generate_content (available : Bool) (provider : Nat → ProviderOutcome) :
    Except Unit (Option String) × Nat :=
  tenacityGo (generate_content_once available) provider 0 3

/-- A provider that raises on the first attempt and would return a valid
response on every later attempt. -/
def failThenOk : Nat → ProviderOutcome
  | 0 => .raises
  | _ + 1 => .text "recovered analysis"

/-- C6 (the code defeats its own retry policy): `generate_content` always
finishes on the first attempt with a normal return — the body's broad
`except` swallows every provider exception before `tenacity` can see it, so
no retry ever happens — and in particular a transient first-attempt failure
yields `None` even though the second attempt would have returned text.  It
does hold that no exception reaches the caller. -/
theorem generate_content_never_retries :
    (∀ (available : Bool) (provider : Nat → ProviderOutcome),
      ∃ v, generate_content available provider = (Except.ok v, 1)) ∧
    generate_content true failThenOk = (Except.ok none, 1) ∧
    generate_content_once true (failThenOk 1) = .ok (some "recovered analysis") := by
  refine ⟨?_, rfl, rfl⟩
  intro available provider
  have hbody : ∃ v, generate_content_once available (provider 0) = .ok v := by
    cases available with
    | false => exact ⟨none, rfl⟩
    | true =>
        cases houtcome : provider 0 with
        | raises => exact ⟨none, rfl⟩
        | text s => exact ⟨if s = "" then none else some s, rfl⟩
  obtain ⟨v, hv⟩ := hbody
  refine ⟨v, ?_⟩
  show tenacityGo (generate_content_once available) provider 0 3 = (.ok v, 1)
  rw [tenacityGo, hv]

/-! ### `RedditService.get_activity_with_fallback`
(`app/services/reddit_service.py`) -/

/-- The fields of a `get_community_activity` payload the fallback logic
inspects: the optional error message and the primary signal metric. -/
structure RedditAct where
  error : Option String
  posts_last_n_days : Nat
deriving DecidableEq

/-- Python truthiness of `result.get("error")`. -/
def actErr (r : RedditAct) : Bool :=
  match r.error with
  | some s => !(s = "")
  | none => false

/-- The fallback wrapper's result: the kept payload plus the
`used_fallback` marker the wrapper may add. -/
structure RedditOut where
  act : RedditAct
  used_fallback : Bool
deriving DecidableEq

/-- Python `str.split()` (split on whitespace runs, dropping empties). -/
def splitWsAux : List Char → List Char → List String
  | [], acc => if acc.isEmpty then [] else [String.mk acc.reverse]
  | c :: rest, acc =>
      if isPyWs c then
        if acc.isEmpty then splitWsAux rest []
        else String.mk acc.reverse :: splitWsAux rest []
      else splitWsAux rest (c :: acc)

/-- Python `idea.split()`. -/
def pySplitWs (s : String) : List String :=
  splitWsAux s.data []

/-- Python `" ".join(words)`. -/
def joinSpace : List String → String
  | [] => ""
  | [x] => x
  | x :: y :: rest => x ++ " " ++ joinSpace (y :: rest)

/-- The one alternate, broader query: the first three whitespace-separated
words of the idea. -/
def broaderQuery (idea : String) : String :=
  joinSpace ((pySplitWs idea).take 3)

/-- `RedditService.get_activity_with_fallback`, with the underlying
`get_community_activity` as an explicit environment; also returns the list
of queries issued, in order. -/
def get_activity_with_fallback (env : String → RedditAct) (idea : String) :
    RedditOut × List String :=
  let result := env idea
  if !actErr result && decide (result.posts_last_n_days > 0) then
    (⟨result, false⟩, [idea])
  else
    let bq := broaderQuery idea
    let fallback_result := env bq
    if !actErr fallback_result then (⟨fallback_result, true⟩, [idea, bq])
    else (⟨result, false⟩, [idea, bq])

/-- The signal strength of a payload: zero on error, otherwise the post
count. -/
def redditSignal (r : RedditAct) : Nat :=
  if actErr r then 0 else r.posts_last_n_days

/-- C8: when the primary query errors or finds zero posts, exactly one
alternate broader query is run; the alternate is kept when it does not
error (its signal is at least both signals), otherwise the primary result
is returned unchanged; and the `used_fallback` flag is set exactly when the
alternate is kept. -/
theorem reddit_fallback_policy (env : String → RedditAct) (idea : String)
    (h : actErr (env idea) = true ∨ (env idea).posts_last_n_days = 0) :
    (get_activity_with_fallback env idea).2 = [idea, broaderQuery idea] ∧
    (get_activity_with_fallback env idea).1 =
      (if actErr (env (broaderQuery idea)) = false
       then ⟨env (broaderQuery idea), true⟩
       else ⟨env idea, false⟩) ∧
    redditSignal (get_activity_with_fallback env idea).1.act ≥
      redditSignal (env idea) ∧
    redditSignal (get_activity_with_fallback env idea).1.act ≥
      redditSignal (env (broaderQuery idea)) ∧
    ((get_activity_with_fallback env idea).1.used_fallback = true ↔
      actErr (env (broaderQuery idea)) = false) := by
  have hsig : redditSignal (env idea) = 0 := by
    rcases h with h | h
    · simp [redditSignal, h]
    · simp [redditSignal, h]
  have hcond : (!actErr (env idea) && decide ((env idea).posts_last_n_days > 0)) = false := by
    rcases h with h | h
    · simp [h]
    · simp [h]
  cases hfb : actErr (env (broaderQuery idea)) with
  | false =>
      have hout : get_activity_with_fallback env idea =
          (⟨env (broaderQuery idea), true⟩, [idea, broaderQuery idea]) := by
        simp only [get_activity_with_fallback]
        rw [hcond, hfb]
        simp
      rw [hout]
      refine ⟨rfl, by simp, ?_, ?_, by simp⟩
      · rw [hsig]
        exact Nat.zero_le _
      · exact le_refl _
  | true =>
      have hout : get_activity_with_fallback env idea =
          (⟨env idea, false⟩, [idea, broaderQuery idea]) := by
        simp only [get_activity_with_fallback]
        rw [hcond, hfb]
        simp
      rw [hout]
      refine ⟨rfl, by simp, le_refl _, ?_, by simp⟩
      rw [show redditSignal (env (broaderQuery idea)) = 0 by simp [redditSignal, hfb]]
      exact Nat.zero_le _

/-- A community-activity environment where the full idea finds nothing but
the broader three-word query finds posts. -/
def wRedditEnv : String → RedditAct := fun q =>
  if q = "smart home automation for pet owners" then ⟨none, 0⟩ else ⟨none, 5⟩

/-- C8 witness: the fallback policy at a concrete idea whose primary query
returns zero posts. -/
theorem reddit_fallback_policy_witness :
    (actErr (wRedditEnv "smart home automation for pet owners") = true ∨
      (wRedditEnv "smart home automation for pet owners").posts_last_n_days = 0) ∧
    (get_activity_with_fallback wRedditEnv "smart home automation for pet owners").2 =
      ["smart home automation for pet owners",
       broaderQuery "smart home automation for pet owners"] :=
  ⟨Or.inr (by decide),
   (reddit_fallback_policy wRedditEnv "smart home automation for pet owners"
     (Or.inr (by decide))).1⟩

/-! ### `batch_validation` (`app/api/routes.py`) -/

/-- The request model `ValidationRequest` of `schemas.py`. -/
structure ValidationRequest where
  idea : String
  include_reddit : Bool
  include_trends : Bool
  include_competitors : Bool
deriving DecidableEq

/-- One entry of the batch response's `results` list. -/
inductive BatchItem where
  | success (index : Nat) (idea : String) (result : ValidationResult) : BatchItem
  | failed (index : Nat) (idea : String) (error : String) : BatchItem
deriving DecidableEq

/-- The `status` field of a batch entry. -/
def BatchItem.statusOf : BatchItem → String
  | .success _ _ _ => "success"
  | .failed _ _ _ => "failed"

/-- An HTTP error response (`HTTPException`). -/
structure HTTPError where
  status_code : Nat
  detail : String
deriving DecidableEq

/-- The batch endpoint's success body. -/
structure BatchResponse where
  batch_size : Nat
  results : List BatchItem
  timestamp : String
  note : String
deriving DecidableEq

/-- `batch_validation` of `routes.py`, with
`validation_service.validate_startup_idea` as an explicit behaviour that
may throw (`Except.error`).  The outer catch-all `except` is unreachable in
this model because the per-item `try` absorbs every item failure. -/
def batch_validation (vB : ValidationRequest → Except String ValidationResult)
    (now : String) (reqs : List ValidationRequest) :
    Except HTTPError BatchResponse :=
  if reqs.length > 3 then
    .error ⟨400, "Batch size limited to 3 ideas for serverless environment"⟩
  else
    .ok ⟨reqs.length,
      reqs.enum.map (fun p =>
        match vB p.2 with
        | .ok r => BatchItem.success p.1 p.2.idea r
        | .error e => BatchItem.failed p.1 p.2.idea e),
      now, "Batch validation using pure LLM approach"⟩

/-- C9: batches above the fixed limit of 3 are rejected with a 400 client
error; batches within the limit always succeed, and each item is processed
independently — an item whose validation throws becomes a `failed` entry
while every other item keeps its `success` entry. -/
theorem batch_caps_and_isolates
    (vB : ValidationRequest → Except String ValidationResult)
    (now : String) (reqs : List ValidationRequest) :
    (reqs.length > 3 → batch_validation vB now reqs =
      .error ⟨400, "Batch size limited to 3 ideas for serverless environment"⟩) ∧
    (reqs.length ≤ 3 → batch_validation vB now reqs =
      .ok ⟨reqs.length,
        reqs.enum.map (fun p =>
          match vB p.2 with
          | .ok r => BatchItem.success p.1 p.2.idea r
          | .error e => BatchItem.failed p.1 p.2.idea e),
        now, "Batch validation using pure LLM approach"⟩) := by
  constructor
  · intro h
    unfold batch_validation
    rw [if_pos h]
  · intro h
    unfold batch_validation
    rw [if_neg (by omega)]

/-- The per-item validation behaviour for the C9 witness: item two throws
an internal error, the others validate. -/
def wBatchVB : ValidationRequest → Except String ValidationResult := fun req =>
  if req.idea = "idea two for batch testing" then .error "internal error"
  else .ok ⟨req.idea, create_error_analysis req.idea "placeholder" "t", [], "t",
    [], 0, none⟩

/-- The three-item batch for the C9 witness. -/
def wBatchReqs : List ValidationRequest :=
  [⟨"idea one for batch testing", true, true, true⟩,
   ⟨"idea two for batch testing", true, true, true⟩,
   ⟨"idea three for batch testing", true, true, true⟩]

/-- C9 witness: a batch of three where item two throws still returns
entries for items one and three marked successful, item two failed. -/
theorem batch_caps_and_isolates_witness :
    wBatchReqs.length ≤ 3 ∧
    (batch_validation wBatchVB "t" wBatchReqs).map
      (fun resp => resp.results.map BatchItem.statusOf) =
    .ok ["success", "failed", "success"] := by
  refine ⟨by decide, ?_⟩
  rw [(batch_caps_and_isolates wBatchVB "t" wBatchReqs).2 (by decide)]
  rfl

end StartupGuillotine
